import Mathlib

/-!
Verification of the Mirage experiment runner against its specification.

Each section embeds one component of the source tree
(src/mirage/...) as executable Lean definitions and proves the
spec claims about it.  Python floats are modelled as exact rationals
(`Rat`), machine integers as `Int`/`Nat`, Python strings as `String`,
SQL tables as Lean lists, and the external SHA-256 digest
(`hashlib.sha256(...).hexdigest()`) as an uninterpreted function
parameter `sha256hex : String → String`: every digest-level statement
is quantified over it, and collision/injectivity facts are settled at
the level of the exact byte strings fed to the digest.
-/

/- ============================================================
   Section 1: src/mirage/metrics/status.py
   ============================================================ -/

/-- `StatusBadge = Literal["pass", "flagged", "reject"]` from status.py. -/
inductive StatusBadge where
  | pass
  | flagged
  | reject
deriving DecidableEq, Repr

/-- One entry of the `reasons` list built by `compute_status_badge`.
Each constructor stands for the human-readable reason string the code
appends for that condition (the numeric interpolation in the f-string
is presentation only and is abstracted to the condition tag). -/
inductive StatusReason where
  | decode_ok
  | face_present_ratio
  | av_duration_delta_ms
  | flicker_score
  | freeze_frame_ratio
  | blur_score
  | mouth_audio_corr
deriving DecidableEq, Repr

/-- `REJECT_FACE_PRESENT_FLOOR = 0.2` (status.py line 17). -/
def REJECT_FACE_PRESENT_FLOOR : Rat := 1/5

/-- `REJECT_AV_DELTA_CEILING = 500` (status.py line 18). -/
def REJECT_AV_DELTA_CEILING : Int := 500

/-- `FLAG_FLICKER_CEILING = 10.0` (status.py line 21). -/
def FLAG_FLICKER_CEILING : Rat := 10

/-- `FLAG_FREEZE_CEILING = 0.3` (status.py line 22). -/
def FLAG_FREEZE_CEILING : Rat := 3/10

/-- `FLAG_BLUR_FLOOR = 20.0` (status.py line 23). -/
def FLAG_BLUR_FLOOR : Rat := 20

/-- `FLAG_MOUTH_AUDIO_CORR_FLOOR = -0.1` (status.py line 24). -/
def FLAG_MOUTH_AUDIO_CORR_FLOOR : Rat := -(1/10)

/-- `StatusResult` dataclass from status.py. -/
structure StatusResult where
  badge : StatusBadge
  reasons : List StatusReason
deriving DecidableEq, Repr

/-- `compute_status_badge` (status.py lines 42-107).  The source appends
a reason and sets `has_reject`/`has_flag` inside one `if` per condition,
in this exact order, then picks the badge with
`reject > flagged > pass`.  `has_reject` (resp. `has_flag`) ends up true
iff at least one of the reject (resp. flag) conditions fired. -/
def compute_status_badge (decode_ok : Bool) (face_present_ratio : Rat)
    (av_duration_delta_ms : Int) (flicker_score : Rat)
    (freeze_frame_ratio : Rat) (blur_score : Rat)
    (mouth_audio_corr : Rat) : StatusResult :=
  let reasons : List StatusReason :=
    (if decode_ok = false then [StatusReason.decode_ok] else [])
    ++ (if face_present_ratio < REJECT_FACE_PRESENT_FLOOR then
          [StatusReason.face_present_ratio] else [])
    ++ (if av_duration_delta_ms > REJECT_AV_DELTA_CEILING then
          [StatusReason.av_duration_delta_ms] else [])
    ++ (if flicker_score > FLAG_FLICKER_CEILING then
          [StatusReason.flicker_score] else [])
    ++ (if freeze_frame_ratio > FLAG_FREEZE_CEILING then
          [StatusReason.freeze_frame_ratio] else [])
    ++ (if blur_score < FLAG_BLUR_FLOOR then
          [StatusReason.blur_score] else [])
    ++ (if mouth_audio_corr < FLAG_MOUTH_AUDIO_CORR_FLOOR then
          [StatusReason.mouth_audio_corr] else [])
  let badge : StatusBadge :=
    if decode_ok = false ∨ face_present_ratio < REJECT_FACE_PRESENT_FLOOR
        ∨ av_duration_delta_ms > REJECT_AV_DELTA_CEILING then
      StatusBadge.reject
    else if flicker_score > FLAG_FLICKER_CEILING
        ∨ freeze_frame_ratio > FLAG_FREEZE_CEILING
        ∨ blur_score < FLAG_BLUR_FLOOR
        ∨ mouth_audio_corr < FLAG_MOUTH_AUDIO_CORR_FLOOR then
      StatusBadge.flagged
    else
      StatusBadge.pass
  { badge := badge, reasons := reasons }

/- ============================================================
   Section 2: src/mirage/core/identity.py and
              src/mirage/providers/mock.py
   ============================================================ -/

/-- ASCII digit character `48 + n`, as produced by Python decimal
integer formatting. -/
def digitChar (n : Nat) : Char := Char.ofNat (48 + n)

/-- Decimal digit list of a natural number, least significant digit
last — the digits of Python `str(n)` for `n ≥ 0`. -/
def natDecimal (n : Nat) : List Char :=
  if _h : n < 10 then [digitChar n]
  else natDecimal (n / 10) ++ [digitChar (n % 10)]
termination_by n
decreasing_by exact Nat.div_lt_self (by omega) (by omega)

/-- Python `str(n)` for a natural number. -/
def natRepr (n : Nat) : String := ⟨natDecimal n⟩

/-- Python `str(i)` for an int: decimal digits with a leading
minus sign when negative. -/
def intRepr (i : Int) : String :=
  if i < 0 then "-" ++ natRepr (-i).toNat else natRepr i.toNat

/-- Lowercase hexadecimal digit character. -/
def hexDigitChar (n : Nat) : Char :=
  if n < 10 then Char.ofNat (48 + n) else Char.ofNat (87 + n)

/-- Four lowercase hex digits of a number below 0x10000. -/
def hex4 (n : Nat) : List Char :=
  [hexDigitChar (n / 4096 % 16), hexDigitChar (n / 256 % 16),
   hexDigitChar (n / 16 % 16), hexDigitChar (n % 16)]

/-- A JSON `\uXXXX` escape. -/
def uEscape (n : Nat) : List Char := ['\\', 'u'] ++ hex4 n

/-- Escape of one character under Python `json.dumps` with its default
`ensure_ascii=True`: short escapes for the JSON specials, `\uXXXX` for
other control and all non-ASCII characters (surrogate pairs above
0xFFFF), identity otherwise. -/
def jsonEscapeChar (c : Char) : List Char :=
  if c = '"' then ['\\', '"']
  else if c = '\\' then ['\\', '\\']
  else if c = '\n' then ['\\', 'n']
  else if c = '\r' then ['\\', 'r']
  else if c = '\t' then ['\\', 't']
  else if c.toNat = 8 then ['\\', 'b']
  else if c.toNat = 12 then ['\\', 'f']
  else if c.toNat < 32 then uEscape c.toNat
  else if c.toNat < 127 then [c]
  else if c.toNat < 65536 then uEscape c.toNat
  else uEscape (55296 + (c.toNat - 65536) / 1024)
    ++ uEscape (56320 + (c.toNat - 65536) % 1024)

/-- JSON escaping of a character list. -/
def jsonEscapeList (l : List Char) : List Char :=
  (l.map jsonEscapeChar).flatten

/-- JSON escaping of a string. -/
def jsonEscape (s : String) : String := ⟨jsonEscapeList s.data⟩

/-- JSON serialisation of a string value (quotes around the escaped
body), as produced by `json.dumps`. -/
def jsonString (s : String) : String := "\"" ++ jsonEscape s ++ "\""

/-- JSON serialisation of a nullable string value:
`None` serialises to `null`. -/
def jsonNullable (v : Option String) : String :=
  match v with
  | none => "null"
  | some s => jsonString s

/-- The canonical JSON document hashed by `compute_spec_hash`
(identity.py lines 47-60): `json.dumps(spec_obj, sort_keys=True,
separators=(",", ":"))` over the eight listed keys.  The keys appear
in sorted order with no insignificant whitespace. -/
def specHashInput (provider model : String) (model_version : Option String)
    (rendered_prompt params_json : String) (seed : Int)
    (input_audio_sha256 : String) (ref_image_sha256 : Option String) :
    String :=
  "\x7b\"input_audio_sha256\":" ++ jsonString input_audio_sha256
  ++ ",\"model\":" ++ jsonString model
  ++ ",\"model_version\":" ++ jsonNullable model_version
  ++ ",\"params_json\":" ++ jsonString params_json
  ++ ",\"provider\":" ++ jsonString provider
  ++ ",\"ref_image_sha256\":" ++ jsonNullable ref_image_sha256
  ++ ",\"rendered_prompt\":" ++ jsonString rendered_prompt
  ++ ",\"seed\":" ++ intRepr seed
  ++ "\x7d"

/-- `compute_spec_hash` (identity.py lines 16-63): SHA-256 hex digest of
the canonical JSON document.  `sha256hex` stands for
`hashlib.sha256(utf8-bytes).hexdigest()`. -/
def compute_spec_hash (sha256hex : String → String)
    (provider model : String) (model_version : Option String)
    (rendered_prompt params_json : String) (seed : Int)
    (input_audio_sha256 : String) (ref_image_sha256 : Option String) :
    String :=
  sha256hex (specHashInput provider model model_version rendered_prompt
    params_json seed input_audio_sha256 ref_image_sha256)

/-- The pipe-joined identity string hashed by `compute_run_id`
(identity.py line 86). -/
def runIdInput (experiment_id item_id variant_key spec_hash : String) :
    String :=
  experiment_id ++ "|" ++ item_id ++ "|" ++ variant_key ++ "|" ++ spec_hash

/-- `compute_run_id` (identity.py lines 66-88). -/
def compute_run_id (sha256hex : String → String)
    (experiment_id item_id variant_key spec_hash : String) : String :=
  sha256hex (runIdInput experiment_id item_id variant_key spec_hash)

/-- The pipe-joined string hashed by `compute_provider_idempotency_key`
(identity.py line 107). -/
def providerIdemInput (provider spec_hash : String) : String :=
  provider ++ "|" ++ spec_hash

/-- `compute_provider_idempotency_key` (identity.py lines 91-109). -/
def compute_provider_idempotency_key (sha256hex : String → String)
    (provider spec_hash : String) : String :=
  sha256hex (providerIdemInput provider spec_hash)

/-- `GenerationInput` (models/types.py lines 12-24).  The opaque
`params: dict` payload is modelled as an association list. -/
structure GenerationInput where
  provider : String
  model : String
  model_version : Option String
  prompt_template : String
  params : List (String × String)
  seed : Int
  input_audio_path : String
  input_audio_sha256 : String
  ref_image_path : Option String
  ref_image_sha256 : Option String

/-- Python `f"{v}"` of an optional string: `None` renders as "None". -/
def pyStrOpt (v : Option String) : String :=
  match v with
  | none => "None"
  | some s => s

/-- The colon-joined string hashed by `MockProvider._compute_job_id`
(mock.py lines 44-55).  Note that `params` does not occur in it. -/
def jobIdInput (i : GenerationInput) : String :=
  i.provider ++ ":" ++ i.model ++ ":" ++ pyStrOpt i.model_version ++ ":"
    ++ i.prompt_template ++ ":" ++ intRepr i.seed ++ ":"
    ++ i.input_audio_sha256 ++ ":" ++ pyStrOpt i.ref_image_sha256

/-- `MockProvider._compute_job_id` (mock.py lines 44-55): first 16 hex
characters of the SHA-256 of the joined input string. -/
def MockProvider.compute_job_id (sha256hex : String → String)
    (i : GenerationInput) : String :=
  (sha256hex (jobIdInput i)).take 16

/-- The output path `self.output_dir / f"{job_id}.mp4"` used by
`MockProvider.generate_variant` (mock.py line 123). -/
def MockProvider.output_path (sha256hex : String → String)
    (output_dir : String) (i : GenerationInput) : String :=
  output_dir ++ "/" ++ MockProvider.compute_job_id sha256hex i ++ ".mp4"

/-- The synthetic test-pattern colour `(r, g, b)` derived from the seed
by `MockProvider._generate_synthetic_video` (mock.py lines 77-79):
`r = (seed * 37) % 256` etc.  Python `%` with a positive modulus
agrees with Lean `Int.emod`. -/
def MockProvider.syntheticColor (seed : Int) : Int × Int × Int :=
  ((seed * 37) % 256, (seed * 59) % 256, (seed * 97) % 256)

/- ============================================================
   Section 3: src/mirage/db/schema.py, src/mirage/db/repo.py and
              src/mirage/worker/orchestrator.py
   ============================================================ -/

/-- A `runs` row (db/schema.py lines 70-98, domain `RunEntity`).
Timestamps are abstract ticks.  `worker_id` is NOT a column of
schema.py; the field exists only so that the spec-modelled
`claim_queued_runs` below can stamp it, and no function translated
from src touches it. -/
structure RunRec where
  run_id : String
  experiment_id : String
  item_id : String
  variant_key : String
  spec_hash : String
  status : String
  output_canon_uri : Option String := none
  output_sha256 : Option String := none
  started_at : Option Nat := none
  ended_at : Option Nat := none
  error_code : Option String := none
  error_detail : Option String := none
  worker_id : Option String := none
deriving DecidableEq, Repr

/-- A `human_tasks` row (db/schema.py lines 155-173, domain
`TaskEntity`). -/
structure TaskRec where
  task_id : String
  experiment_id : String
  task_type : String
  left_run_id : String
  right_run_id : String
  presented_left_run_id : String
  presented_right_run_id : String
  flip : Bool
  status : String
deriving DecidableEq, Repr

/-- A `human_ratings` row (db/schema.py lines 176-192, domain
`RatingEntity`).  The four choice values are the Python strings
"left" / "right" / "tie" / "skip". -/
structure RatingRec where
  rating_id : String
  task_id : String
  rater_id : String
  choice_realism : String
  choice_lipsync : String
  choice_targetmatch : Option String := none
  notes : Option String := none
deriving DecidableEq, Repr

/-- A `provider_calls` row (db/schema.py lines 101-127, domain
`ProviderCallEntity`).  Note: there is no `raw_artifact_uri` or
`raw_artifact_sha256` column. -/
structure ProviderCallRec where
  provider_call_id : String
  run_id : String
  provider : String
  provider_idempotency_key : String
  attempt : Int
  status : String
  provider_job_id : Option String := none
  request_json_sanitized : Option String := none
  response_json_sanitized : Option String := none
  cost_usd : Option Rat := none
  latency_ms : Option Int := none
deriving DecidableEq, Repr

/-- The relational store: one list per table, in insertion (rowid)
order — the order in which unordered SQLAlchemy queries return rows. -/
structure Store where
  runs : List RunRec
  tasks : List TaskRec
  ratings : List RatingRec
  provider_calls : List ProviderCallRec
deriving DecidableEq, Repr

/-- `repo.get_queued_runs` (repo.py lines 219-222). -/
def get_queued_runs (s : Store) : List RunRec :=
  s.runs.filter (fun r => r.status == "queued")

/-- `repo.get_run` via `.first()` (repo.py lines 178-181). -/
def get_run (s : Store) (run_id : String) : Option RunRec :=
  (s.runs.filter (fun r => r.run_id == run_id)).head?

/-- `repo.get_succeeded_run_ids_for_experiment`
(repo.py lines 209-216). -/
def get_succeeded_run_ids_for_experiment (s : Store)
    (experiment_id : String) : List String :=
  (s.runs.filter (fun r =>
    r.experiment_id == experiment_id && r.status == "succeeded")).map
    (fun r => r.run_id)

/-- `repo.get_run_ids_for_experiment` (repo.py lines 203-206). -/
def get_run_ids_for_experiment (s : Store) (experiment_id : String) :
    List String :=
  (s.runs.filter (fun r => r.experiment_id == experiment_id)).map
    (fun r => r.run_id)

/-- `repo.get_done_tasks_for_experiment` (repo.py lines 325-335). -/
def get_done_tasks_for_experiment (s : Store) (experiment_id : String) :
    List TaskRec :=
  s.tasks.filter (fun t =>
    t.experiment_id == experiment_id && t.status == "done")

/-- `repo.get_ratings_for_tasks` (repo.py lines 418-423). -/
def get_ratings_for_tasks (s : Store) (task_ids : List String) :
    List RatingRec :=
  if task_ids.isEmpty then []
  else s.ratings.filter (fun r => task_ids.contains r.task_id)

/-- Update the first row matching `run_id`, as the SQLAlchemy
`query(...).filter(Run.run_id == run_id).first()` + attribute
assignment pattern does (run_id is the primary key, so at most one
row matches). -/
def updateRunRecs (runs : List RunRec) (run_id : String)
    (f : RunRec → RunRec) : List RunRec :=
  match runs with
  | [] => []
  | r :: rest =>
    if r.run_id == run_id then f r :: rest
    else r :: updateRunRecs rest run_id f

/-- Python `if x is not None: field = x` assignment semantics. -/
def assignIfSome (new old : Option String) : Option String :=
  match new with
  | some v => some v
  | none => old

/-- `repo.update_run_status` (repo.py lines 225-246): sets `status`
unconditionally on the matching run (no transition guard) and
assigns each optional field only when the argument is not None.
A missing run is a silent no-op. -/
def update_run_status (s : Store) (run_id status : String)
    (output_canon_uri output_sha256 error_code error_detail :
      Option String) : Store :=
  { s with runs := updateRunRecs s.runs run_id (fun r =>
      { r with
        status := status,
        output_canon_uri := assignIfSome output_canon_uri r.output_canon_uri,
        output_sha256 := assignIfSome output_sha256 r.output_sha256,
        error_code := assignIfSome error_code r.error_code,
        error_detail := assignIfSome error_detail r.error_detail }) }

/-- `repo.set_run_started` (repo.py lines 249-256): unconditionally
sets status to "running" and stamps `started_at` on the matching
run, whatever its current status. -/
def set_run_started (s : Store) (run_id : String) (now : Nat) : Store :=
  { s with runs := updateRunRecs s.runs run_id (fun r =>
      { r with status := "running", started_at := some now }) }

/-- `repo.set_run_ended` (repo.py lines 259-265). -/
def set_run_ended (s : Store) (run_id : String) (now : Nat) : Store :=
  { s with runs := updateRunRecs s.runs run_id (fun r =>
      { r with ended_at := some now }) }

/-- `repo.get_provider_call_by_idempotency_key`
(repo.py lines 431-443). -/
def get_provider_call_by_idempotency_key (s : Store)
    (provider idempotency_key : String) : Option ProviderCallRec :=
  (s.provider_calls.filter (fun c =>
    c.provider == provider
      && c.provider_idempotency_key == idempotency_key)).head?

/-- The keyword parameters accepted by `repo.update_provider_call`
(repo.py lines 463-471), besides the positional session and
`provider_call_id`. -/
def updateProviderCallParams : List String :=
  ["status", "provider_job_id", "cost_usd", "latency_ms"]

/-- The fields of the domain dataclass `ProviderCallEntity`
(models/domain.py lines 83-95). -/
def providerCallEntityFields : List String :=
  ["provider_call_id", "run_id", "provider", "provider_idempotency_key",
   "attempt", "status", "provider_job_id", "cost_usd", "latency_ms"]

/-- The keyword arguments `RunProcessor._call_provider` passes to
`repo.update_provider_call` when completing a fresh provider call
(orchestrator.py lines 141-150). -/
def orchestratorCompleteCallKwargs : List String :=
  ["status", "provider_job_id", "cost_usd", "latency_ms",
   "raw_artifact_uri", "raw_artifact_sha256"]

/-- The attribute of the reused call read by the completed-call branch
of `RunProcessor._call_provider` (orchestrator.py line 102). -/
def orchestratorReuseAttr : String := "raw_artifact_uri"

/-- What `RunProcessor._call_provider` does with the existing provider
call found under the run's idempotency key (orchestrator.py lines
96-124): only `status == "completed"` is reused; any other existing
row — in particular one with status "created" — falls through to
`create_provider_call`, inserting a NEW row carrying the same
`(provider, provider_idempotency_key)`. -/
inductive ProviderStepAction where
  | reuseCompleted
  | insertNewRow
deriving DecidableEq, Repr

/-- The branch selection of `RunProcessor._call_provider`
(orchestrator.py lines 96-124). -/
def callProviderAction (existing_call : Option ProviderCallRec) :
    ProviderStepAction :=
  match existing_call with
  | some c =>
    if c.status == "completed" then ProviderStepAction.reuseCompleted
    else ProviderStepAction.insertNewRow
  | none => ProviderStepAction.insertNewRow

/-- A raised Python exception: `name` is `type(e).__name__`, `msg` is
`str(e)`. -/
structure PyExc where
  name : String
  msg : String
deriving DecidableEq, Repr

/-- `CanonArtifact` (models/types.py lines 36-41). -/
structure CanonArtifact where
  canon_video_path : String
  sha256 : String
  duration_ms : Int
deriving DecidableEq, Repr

/-- Environment of `WorkerOrchestrator._build_context`
(orchestrator.py lines 293-363): which store lookups succeed and
whether the audio file exists on disk. -/
structure BuildEnv where
  item_found : Bool
  experiment_found : Bool
  spec_found : Bool
  audio_exists : Bool
  item_id : String
  experiment_id : String
  spec_id : String
  audio_uri : String
deriving DecidableEq, Repr

/-- `WorkerOrchestrator._build_context` (orchestrator.py lines
293-363), reduced to its failure behaviour: each guard raises the
exception type the source raises there. -/
def build_context (env : BuildEnv) : Except PyExc Unit :=
  if env.item_found = false then
    Except.error ⟨"ValueError", "DatasetItem not found: " ++ env.item_id⟩
  else if env.experiment_found = false then
    Except.error ⟨"ValueError",
      "Experiment not found: " ++ env.experiment_id⟩
  else if env.spec_found = false then
    Except.error ⟨"ValueError",
      "GenerationSpec not found: " ++ env.spec_id⟩
  else if env.audio_exists = false then
    Except.error ⟨"FileNotFoundError",
      "Audio file not found: " ++ env.audio_uri⟩
  else Except.ok ()

/-- Environment of `normalize_video` (normalize/video.py lines 32-106):
file existence, subprocess outcome, and the produced artifact. -/
structure NormEnv where
  raw_exists : Bool
  audio_exists : Bool
  timed_out : Bool
  returncode : Int
  stderr : String
  raw_video_path : String
  audio_path : String
  artifact : CanonArtifact
deriving DecidableEq, Repr

/-- `normalize_video` (normalize/video.py lines 32-106): missing
inputs raise `FileNotFoundError`; a subprocess timeout or a non-zero
exit raises `RuntimeError`. -/
def normalize_video (env : NormEnv) : Except PyExc CanonArtifact :=
  if env.raw_exists = false then
    Except.error ⟨"FileNotFoundError",
      "Video file not found: " ++ env.raw_video_path⟩
  else if env.audio_exists = false then
    Except.error ⟨"FileNotFoundError",
      "Audio file not found: " ++ env.audio_path⟩
  else if env.timed_out then
    Except.error ⟨"RuntimeError",
      "Normalization timed out for " ++ env.raw_video_path⟩
  else if env.returncode != 0 then
    Except.error ⟨"RuntimeError", "Normalization failed: " ++ env.stderr⟩
  else Except.ok env.artifact

/-- Environment of one `WorkerOrchestrator.process_run` invocation
(orchestrator.py lines 249-291): the outcome of each pipeline step.
The provider and metrics steps are external effects whose outcome
(success or a raised exception) is a parameter. -/
structure RunEnv where
  build : BuildEnv
  provider_result : Except PyExc Unit
  norm : NormEnv
  metrics_result : Except PyExc Unit
  now : Nat
deriving Repr

/-- `RunProcessor.execute` (orchestrator.py lines 72-81): provider,
then normalize, then metrics, strictly in order — a later step runs
only if every earlier step returned. -/
def processor_execute (env : RunEnv) : Except PyExc (String × String) :=
  match env.provider_result with
  | Except.error e => Except.error e
  | Except.ok _ =>
    match normalize_video env.norm with
    | Except.error e => Except.error e
    | Except.ok canon =>
      match env.metrics_result with
      | Except.error e => Except.error e
      | Except.ok _ =>
        Except.ok (canon.canon_video_path, canon.sha256)

/-- `WorkerOrchestrator.process_run` (orchestrator.py lines 249-291):
build context, mark a still-queued run running, run the processor;
on success record `succeeded`, on ANY exception record `failed` with
`error_code = type(e).__name__` and `error_detail = str(e)`.  The
function is total: no exception propagates to the worker loop. -/
def process_run (s : Store) (run : RunRec) (env : RunEnv) : Store :=
  match build_context env.build with
  | Except.error e =>
    set_run_ended
      (update_run_status s run.run_id "failed" none none
        (some e.name) (some e.msg))
      run.run_id env.now
  | Except.ok _ =>
    let s1 := if run.status == "queued" then
        set_run_started s run.run_id env.now
      else s
    match processor_execute env with
    | Except.ok result =>
      set_run_ended
        (update_run_status s1 run.run_id "succeeded" (some result.1)
          (some result.2) none none)
        run.run_id env.now
    | Except.error e =>
      set_run_ended
        (update_run_status s1 run.run_id "failed" none none
          (some e.name) (some e.msg))
        run.run_id env.now

/-- Modelled from the spec: `claim_queued_runs(limit, worker_id)`
(spec §4.2) is called by `WorkerOrchestrator.claim_runs`
(orchestrator.py line 247) but is absent from
src/src/mirage/db/repo.py; only its caller exists in src.  Per the
spec it "atomically transitions up to `limit` runs from queued to
running, stamping `started_at` and `worker_id`" and returns them.
This helper walks the runs table once, claiming queued runs while
the limit lasts. -/
def claimRunsGo (runs : List RunRec) (lim : Nat) (worker_id : String)
    (now : Nat) : List RunRec × List RunRec :=
  match runs with
  | [] => ([], [])
  | r :: rest =>
    match lim with
    | 0 => ([], r :: rest)
    | lim' + 1 =>
      if r.status == "queued" then
        let r' := { r with
          status := "running",
          started_at := some now,
          worker_id := some worker_id }
        let res := claimRunsGo rest lim' worker_id now
        (r' :: res.1, r' :: res.2)
      else
        let res := claimRunsGo rest (lim' + 1) worker_id now
        (res.1, r :: res.2)

/-- Modelled from the spec: `claim_queued_runs(limit, worker_id)`
(spec §4.2); see `claimRunsGo`.  Returns the claimed runs and the
updated store. -/
def claim_queued_runs (s : Store) (lim : Nat) (worker_id : String)
    (now : Nat) : List RunRec × Store :=
  let res := claimRunsGo s.runs lim worker_id now
  (res.1, { s with runs := res.2 })

/-- `WorkerOrchestrator.claim_runs` (orchestrator.py lines 238-247):
delegates to `repo.claim_queued_runs` with the worker's id. -/
def WorkerOrchestrator.claim_runs (s : Store) (lim : Nat)
    (worker_id : String) (now : Nat) : List RunRec × Store :=
  claim_queued_runs s lim worker_id now

/- ============================================================
   Section 4: src/mirage/eval/tasks.py
   ============================================================ -/

/-- Python `tuple(sorted([a, b]))` for two strings: the canonical
(order-independent) form of a pair of run ids. -/
def sortPair (a b : String) : String × String :=
  if a ≤ b then (a, b) else (b, a)

/-- `repo.get_existing_task_pairs` (repo.py lines 351-354).  The
source builds a Python set; only membership is ever used, so it is
modelled as the underlying list. -/
def get_existing_task_pairs (s : Store) (experiment_id : String) :
    List (String × String) :=
  (s.tasks.filter (fun t => t.experiment_id == experiment_id)).map
    (fun t => sortPair t.left_run_id t.right_run_id)

/-- `itertools.combinations(l, 2)` in its iteration order. -/
def combinations2 {α : Type} : List α → List (α × α)
  | [] => []
  | x :: xs => (xs.map (fun y => (x, y))) ++ combinations2 xs

/-- `_create_pairwise_task` (tasks.py lines 82-119) for a given flip
bit and task id.  The source draws `flip` from `secrets.randbelow(2)`
and the id from `uuid.uuid4()`; both are supplied as parameters. -/
def mk_pairwise_task (experiment_id left_run_id right_run_id : String)
    (flip : Bool) (task_id : String) : TaskRec :=
  { task_id := task_id,
    experiment_id := experiment_id,
    task_type := "pairwise",
    left_run_id := left_run_id,
    right_run_id := right_run_id,
    presented_left_run_id :=
      if flip then right_run_id else left_run_id,
    presented_right_run_id :=
      if flip then left_run_id else right_run_id,
    flip := flip,
    status := "open" }

/-- The creation loop of `generate_pairwise_tasks` (tasks.py lines
58-71): walk the combinations, skip pairs whose canonical form is in
the pre-computed `existing_pairs`, and create a task for the rest.
`flips`/`ids` are indexed by the number of tasks created so far. -/
def genTasksGo (experiment_id : String)
    (existing : List (String × String)) (flips : Nat → Bool)
    (ids : Nat → String) : List (String × String) → Nat → List TaskRec
  | [], _ => []
  | (a, b) :: rest, n =>
    if sortPair a b ∈ existing then
      genTasksGo experiment_id existing flips ids rest n
    else
      mk_pairwise_task experiment_id a b (flips n) (ids n)
        :: genTasksGo experiment_id existing flips ids rest (n + 1)

/-- `TaskCreationResult` dataclass (tasks.py lines 22-28). -/
structure TaskCreationResult where
  created_count : Nat
  task_ids : List String
deriving DecidableEq, Repr

/-- `generate_pairwise_tasks` (tasks.py lines 30-79). -/
def generate_pairwise_tasks (flips : Nat → Bool) (ids : Nat → String)
    (s : Store) (experiment_id : String) : TaskCreationResult × Store :=
  let run_ids := get_succeeded_run_ids_for_experiment s experiment_id
  if run_ids.length < 2 then
    ({ created_count := 0, task_ids := [] }, s)
  else
    let existing := get_existing_task_pairs s experiment_id
    let created :=
      genTasksGo experiment_id existing flips ids (combinations2 run_ids) 0
    ({ created_count := created.length,
       task_ids := created.map (fun t => t.task_id) },
     { s with tasks := s.tasks ++ created })

/- ============================================================
   Section 5: src/mirage/aggregation/summary.py
   ============================================================ -/

/-- A Python dict from run id to score, as an insertion-ordered
association list (Python dicts preserve insertion order; updating an
existing key keeps its position). -/
abbrev WinsDict := List (String × Rat)

/-- Dict lookup. -/
def dictGet (d : WinsDict) (k : String) : Option Rat :=
  (d.find? (fun kv => kv.1 == k)).map (fun kv => kv.2)

/-- Dict assignment `d[k] = v`: replaces in place, else appends. -/
def dictSet : WinsDict → String → Rat → WinsDict
  | [], k, v => [(k, v)]
  | (k', v') :: rest, k, v =>
    if k' == k then (k, v) :: rest else (k', v') :: dictSet rest k v

/-- Python `d[k] += delta`: a missing key raises `KeyError`. -/
def dictIncr (d : WinsDict) (k : String) (delta : Rat) :
    Except String WinsDict :=
  match dictGet d k with
  | none => Except.error ("KeyError: " ++ k)
  | some v => Except.ok (dictSet d k (v + delta))

/-- `wins = {run_id: 0.0 for run_id in run_ids}`
(summary.py line 91). -/
def initWins (run_ids : List String) : WinsDict :=
  run_ids.foldl (fun d r => dictSet d r 0) []

/-- The per-choice credit of `_compute_win_rates` (summary.py lines
107-126): "left" credits 0.5 to the canonical right run when the task
is flipped and to the canonical left run otherwise; "right" is
symmetric; "tie" credits 0.25 to the canonical left then 0.25 to the
canonical right regardless of flip; anything else ("skip") credits
nothing. -/
def applyChoice (flip : Bool) (left_run_id right_run_id : String)
    (choice : String) (wins : WinsDict) : Except String WinsDict :=
  if choice == "left" then
    if flip then dictIncr wins right_run_id (1/2)
    else dictIncr wins left_run_id (1/2)
  else if choice == "right" then
    if flip then dictIncr wins left_run_id (1/2)
    else dictIncr wins right_run_id (1/2)
  else if choice == "tie" then
    match dictIncr wins left_run_id (1/4) with
    | Except.error e => Except.error e
    | Except.ok w => dictIncr w right_run_id (1/4)
  else Except.ok wins

/-- One rating's contribution (summary.py line 107): the realism
choice then the lipsync choice (`choice_targetmatch` is not
counted). -/
def applyRating (t : TaskRec) (wins : WinsDict) (r : RatingRec) :
    Except String WinsDict :=
  match applyChoice t.flip t.left_run_id t.right_run_id
      r.choice_realism wins with
  | Except.error e => Except.error e
  | Except.ok w1 =>
    applyChoice t.flip t.left_run_id t.right_run_id r.choice_lipsync w1

/-- `TaskRatingPair` dataclass (summary.py lines 17-22). -/
structure TaskRatingPair where
  task : TaskRec
  ratings : List RatingRec
deriving DecidableEq, Repr

/-- `HumanSummary` (models/types.py lines 118-123), with `win_rates`
as the insertion-ordered dict. -/
structure HumanSummary where
  win_rates : WinsDict
  recommended_pick : Option String
  total_comparisons : Nat
deriving DecidableEq, Repr

/-- The inner rating loop of `_compute_win_rates` (summary.py lines
97-126): each rating bumps `total_comparisons` by one and applies its
two counted choices. -/
def tallyRatings (t : TaskRec) : List RatingRec → WinsDict → Nat →
    Except String (WinsDict × Nat)
  | [], wins, n => Except.ok (wins, n)
  | r :: rest, wins, n =>
    match applyRating t wins r with
    | Except.error e => Except.error e
    | Except.ok w => tallyRatings t rest w (n + 1)

/-- The outer task loop of `_compute_win_rates` (summary.py lines
94-126). -/
def tallyAll : List TaskRatingPair → WinsDict → Nat →
    Except String (WinsDict × Nat)
  | [], wins, n => Except.ok (wins, n)
  | p :: rest, wins, n =>
    match tallyRatings p.task p.ratings wins n with
    | Except.error e => Except.error e
    | Except.ok res => tallyAll rest res.1 res.2

/-- The scan of Python `max(win_rates, key=lambda r: win_rates[r])`:
keep the current best key, replacing it only on a strictly greater
value, so the FIRST key attaining the maximum (in dict insertion
order) wins. -/
def dictArgmaxGo (best : String) (bv : Rat) : WinsDict → String
  | [] => best
  | (k, v) :: rest =>
    if v > bv then dictArgmaxGo k v rest else dictArgmaxGo best bv rest

/-- `recommended_pick` selection (summary.py lines 134-136): `None`
for an empty dict, else the `max` over keys by win rate. -/
def dictArgmax : WinsDict → Option String
  | [] => none
  | (k, v) :: rest => some (dictArgmaxGo k v rest)

/-- `_compute_win_rates` (summary.py lines 75-142). -/
def compute_win_rates (run_ids : List String)
    (task_rating_pairs : List TaskRatingPair) :
    Except String HumanSummary :=
  match tallyAll task_rating_pairs (initWins run_ids) 0 with
  | Except.error e => Except.error e
  | Except.ok res =>
    let wins := res.1
    let total_comparisons := res.2
    let total_possible : Rat :=
      if total_comparisons > 0 then (2 * total_comparisons : Nat) else 1
    let win_rates := wins.map (fun kv => (kv.1, kv.2 / total_possible))
    let recommended_pick := dictArgmax win_rates
    Except.ok
      { win_rates := win_rates,
        recommended_pick := recommended_pick,
        total_comparisons := total_comparisons }

/-- `summarize_experiment` (summary.py lines 25-72): with no done
tasks it returns the empty summary WITHOUT consulting the runs table;
otherwise it initialises the tally from the SUCCEEDED run ids and
groups the ratings by task. -/
def summarize_experiment (s : Store) (experiment_id : String) :
    Except String HumanSummary :=
  let tasks := get_done_tasks_for_experiment s experiment_id
  if tasks.isEmpty then
    Except.ok
      { win_rates := [], recommended_pick := none, total_comparisons := 0 }
  else
    let run_ids := get_succeeded_run_ids_for_experiment s experiment_id
    let all_ratings := get_ratings_for_tasks s (tasks.map (fun t => t.task_id))
    let task_rating_pairs := tasks.map (fun t =>
      TaskRatingPair.mk t
        (all_ratings.filter (fun r => r.task_id == t.task_id)))
    compute_win_rates run_ids task_rating_pairs

/-- The credit table of spec §4.7 step 3, written from the spec's
words: the pair is (credit to canonical L, credit to canonical R). -/
def specCredit (flip : Bool) (choice : String) : Rat × Rat :=
  if choice == "left" then (if flip then (0, 1/2) else (1/2, 0))
  else if choice == "right" then (if flip then (1/2, 0) else (0, 1/2))
  else if choice == "tie" then (1/4, 1/4)
  else (0, 0)

/-- Demo runs and tasks for the aggregation counterexamples. -/
def c6runA : RunRec :=
  { run_id := "a", experiment_id := "e1", item_id := "i",
    variant_key := "v1", spec_hash := "h", status := "succeeded" }

/-- A second succeeded run, inserted before `c6runA` in the store. -/
def c6runB : RunRec :=
  { run_id := "b", experiment_id := "e1", item_id := "i",
    variant_key := "v2", spec_hash := "h", status := "succeeded" }

/-- A failed run of the same experiment. -/
def c6runC : RunRec :=
  { run_id := "c", experiment_id := "e1", item_id := "i",
    variant_key := "v3", spec_hash := "h", status := "failed" }

/-- A done task between the canonical left "b" and right "a". -/
def c6taskBA : TaskRec :=
  { task_id := "t1", experiment_id := "e1", task_type := "pairwise",
    left_run_id := "b", right_run_id := "a",
    presented_left_run_id := "b", presented_right_run_id := "a",
    flip := false, status := "done" }

/-- A done task between the succeeded run "a" and the failed run "c". -/
def c6taskAC : TaskRec :=
  { task_id := "t2", experiment_id := "e1", task_type := "pairwise",
    left_run_id := "a", right_run_id := "c",
    presented_left_run_id := "a", presented_right_run_id := "c",
    flip := false, status := "done" }

/-- Numeric value of a lowercase hexadecimal digit character, the
inverse of `hexDigitChar`.  Proof device for the injectivity of the
canonical JSON serialisation; not part of the source program. -/
def unhex (c : Char) : Nat :=
  if c.toNat ≤ 57 then c.toNat - 48 else c.toNat - 87

/-- Numeric value of four hexadecimal digit characters, the inverse of
`hex4`.  Proof device; not part of the source program. -/
def hex4val (a b c d : Char) : Nat :=
  4096 * unhex a + 256 * unhex b + 16 * unhex c + unhex d

/-- A decoder for the escape code of `jsonEscapeList`: reads escaped
characters (including `\uXXXX` escapes and surrogate pairs) until the
first unescaped quote and returns the decoded characters together with
the remainder after that quote.  Proof device used to show that the
JSON escaping of `json.dumps` is uniquely decodable; not part of the
source program. -/
def escDecode : List Char → Option (List Char × List Char)
  | [] => none
  | c :: rest =>
    if c = '"' then some ([], rest)
    else if c = '\\' then
      match rest with
      | [] => none
      | e :: rest2 =>
        if e = '"' then (escDecode rest2).map (fun p => ('"' :: p.1, p.2))
        else if e = '\\' then
          (escDecode rest2).map (fun p => ('\\' :: p.1, p.2))
        else if e = 'n' then
          (escDecode rest2).map (fun p => ('\n' :: p.1, p.2))
        else if e = 'r' then
          (escDecode rest2).map (fun p => ('\r' :: p.1, p.2))
        else if e = 't' then
          (escDecode rest2).map (fun p => ('\t' :: p.1, p.2))
        else if e = 'b' then
          (escDecode rest2).map (fun p => (Char.ofNat 8 :: p.1, p.2))
        else if e = 'f' then
          (escDecode rest2).map (fun p => (Char.ofNat 12 :: p.1, p.2))
        else if e = 'u' then
          match rest2 with
          | h1 :: h2 :: h3 :: h4 :: rest3 =>
            if 55296 ≤ hex4val h1 h2 h3 h4 ∧ hex4val h1 h2 h3 h4 < 56320
            then
              match rest3 with
              | _ :: _ :: g1 :: g2 :: g3 :: g4 :: rest4 =>
                (escDecode rest4).map (fun p =>
                  (Char.ofNat (65536
                    + 1024 * (hex4val h1 h2 h3 h4 - 55296)
                    + (hex4val g1 g2 g3 g4 - 56320)) :: p.1, p.2))
              | _ => none
            else
              (escDecode rest3).map (fun p =>
                (Char.ofNat (hex4val h1 h2 h3 h4) :: p.1, p.2))
          | _ => none
        else none
    else (escDecode rest).map (fun p => (c :: p.1, p.2))

/-- A string not containing the pipe delimiter of `compute_run_id`. -/
def PipeFree (s : String) : Prop := '|' ∉ s.data

/-- The demo run used by the C2 counterexample: a run already in the
terminal state "succeeded". -/
def c2run : RunRec :=
  { run_id := "r1", experiment_id := "e1", item_id := "i1",
    variant_key := "seed=42", spec_hash := "h", status := "succeeded" }

/-- The demo queued run used by the C9 counterexample. -/
def c9run : RunRec :=
  { run_id := "r1", experiment_id := "e1", item_id := "i1",
    variant_key := "seed=42", spec_hash := "h", status := "queued" }

/-- The C9 counterexample environment: every store lookup succeeds but
the dataset item's audio file is missing on disk. -/
def c9env : RunEnv :=
  { build :=
      { item_found := true,
        experiment_found := true,
        spec_found := true,
        audio_exists := false,
        item_id := "i1",
        experiment_id := "e1",
        spec_id := "s1",
        audio_uri := "/data/a.wav" },
    provider_result := Except.ok (),
    norm :=
      { raw_exists := true,
        audio_exists := true,
        timed_out := false,
        returncode := 0,
        stderr := "",
        raw_video_path := "/raw.mp4",
        audio_path := "/data/a.wav",
        artifact :=
          { canon_video_path := "/canon.mp4",
            sha256 := "s",
            duration_ms := 3000 } },
    metrics_result := Except.ok (),
    now := 7 }

/- ============================================================
   Theorems
   ============================================================ -/

lemma mem_ite_singleton {α : Type} (a b : α) (c : Prop) [Decidable c] :
    a ∈ (if c then [b] else []) ↔ c ∧ a = b := by
  split_ifs <;> simp_all

/-- C4: `compute_status_badge` is a total function returning `reject`
iff a reject condition fired, else `flagged` iff a flag condition
fired, else `pass`; the reasons list holds exactly the fired
conditions (each fired condition appears, nothing else appears, no
duplicates); and the boundary values `av_duration_delta_ms = 500`,
`face_present_ratio = 0.2` do not trigger reject. -/
theorem compute_status_badge_spec (decode_ok : Bool)
    (face_present_ratio : Rat) (av_duration_delta_ms : Int)
    (flicker_score freeze_frame_ratio blur_score mouth_audio_corr : Rat) :
    (let res := compute_status_badge decode_ok face_present_ratio
        av_duration_delta_ms flicker_score freeze_frame_ratio blur_score
        mouth_audio_corr
     let rejectCond := decode_ok = false ∨ face_present_ratio < 1/5
        ∨ av_duration_delta_ms > 500
     let flagCond := flicker_score > 10 ∨ freeze_frame_ratio > 3/10
        ∨ blur_score < 20 ∨ mouth_audio_corr < -(1/10)
     (res.badge = StatusBadge.reject ↔ rejectCond)
     ∧ (res.badge = StatusBadge.flagged ↔ (¬ rejectCond ∧ flagCond))
     ∧ (res.badge = StatusBadge.pass ↔ (¬ rejectCond ∧ ¬ flagCond))
     ∧ (StatusReason.decode_ok ∈ res.reasons ↔ decode_ok = false)
     ∧ (StatusReason.face_present_ratio ∈ res.reasons
          ↔ face_present_ratio < 1/5)
     ∧ (StatusReason.av_duration_delta_ms ∈ res.reasons
          ↔ av_duration_delta_ms > 500)
     ∧ (StatusReason.flicker_score ∈ res.reasons ↔ flicker_score > 10)
     ∧ (StatusReason.freeze_frame_ratio ∈ res.reasons
          ↔ freeze_frame_ratio > 3/10)
     ∧ (StatusReason.blur_score ∈ res.reasons ↔ blur_score < 20)
     ∧ (StatusReason.mouth_audio_corr ∈ res.reasons
          ↔ mouth_audio_corr < -(1/10))
     ∧ res.reasons.Nodup
     ∧ (av_duration_delta_ms = 500 → decode_ok = true
          → ¬ face_present_ratio < 1/5 → res.badge ≠ StatusBadge.reject)
     ∧ (face_present_ratio = 1/5 → decode_ok = true
          → ¬ av_duration_delta_ms > 500
          → res.badge ≠ StatusBadge.reject)) := by
  simp only [compute_status_badge, REJECT_FACE_PRESENT_FLOOR,
    REJECT_AV_DELTA_CEILING, FLAG_FLICKER_CEILING, FLAG_FREEZE_CEILING,
    FLAG_BLUR_FLOOR, FLAG_MOUTH_AUDIO_CORR_FLOOR]
  refine ⟨?_, ?_, ?_, ?_, ?_, ?_, ?_, ?_, ?_, ?_, ?_, ?_, ?_⟩
  · split_ifs with h1 h2
    · exact iff_of_true rfl h1
    · exact iff_of_false (by simp) h1
    · exact iff_of_false (by simp) h1
  · split_ifs with h1 h2
    · exact iff_of_false (by simp) (fun hc => hc.1 h1)
    · exact iff_of_true rfl ⟨h1, h2⟩
    · exact iff_of_false (by simp) (fun hc => h2 hc.2)
  · split_ifs with h1 h2
    · exact iff_of_false (by simp) (fun hc => hc.1 h1)
    · exact iff_of_false (by simp) (fun hc => hc.2 h2)
    · exact iff_of_true rfl ⟨h1, h2⟩
  · simp [List.mem_append, mem_ite_singleton]
  · simp [List.mem_append, mem_ite_singleton]
  · simp [List.mem_append, mem_ite_singleton]
  · simp [List.mem_append, mem_ite_singleton]
  · simp [List.mem_append, mem_ite_singleton]
  · simp [List.mem_append, mem_ite_singleton]
  · simp [List.mem_append, mem_ite_singleton]
  · split_ifs <;> decide
  · intro h5 hd hf
    split_ifs with h1 h2
    · rcases h1 with h | h | h
      · simp [hd] at h
      · exact absurd h hf
      · exact absurd h (by omega)
    · simp
    · simp
  · intro h5 hd hf
    split_ifs with h1 h2
    · rcases h1 with h | h | h
      · simp [hd] at h
      · rw [h5] at h
        exact absurd h (by norm_num)
      · exact absurd h hf
    · simp
    · simp


/- Shared store lemmas -/

lemma filter_head_updateRunRecs (rid : String) (f : RunRec → RunRec)
    (hf : ∀ r, (f r).run_id = r.run_id) :
    ∀ runs : List RunRec,
      ((updateRunRecs runs rid f).filter
          (fun r => r.run_id == rid)).head?
        = ((runs.filter (fun r => r.run_id == rid)).head?).map f
  | [] => by simp [updateRunRecs]
  | r :: rest => by
    by_cases h : r.run_id = rid
    · simp [updateRunRecs, h, List.filter_cons, hf]
    · simp only [updateRunRecs, beq_iff_eq, h, if_false, List.filter_cons]
      have hfr : ((f r).run_id == rid) = false := by
        simp [hf, h]
      simp [h, filter_head_updateRunRecs rid f hf rest]

lemma get_run_update_run_status (s : Store) (rid st : String)
    (a b c d : Option String) :
    get_run (update_run_status s rid st a b c d) rid
      = (get_run s rid).map (fun r =>
          { r with
            status := st,
            output_canon_uri := assignIfSome a r.output_canon_uri,
            output_sha256 := assignIfSome b r.output_sha256,
            error_code := assignIfSome c r.error_code,
            error_detail := assignIfSome d r.error_detail }) := by
  simp only [get_run, update_run_status]
  refine filter_head_updateRunRecs rid _ ?_ s.runs
  intro r
  rfl

lemma get_run_set_run_started (s : Store) (rid : String) (now : Nat) :
    get_run (set_run_started s rid now) rid
      = (get_run s rid).map (fun r =>
          { r with
            status := "running",
            started_at := some now }) := by
  simp only [get_run, set_run_started]
  refine filter_head_updateRunRecs rid _ ?_ s.runs
  intro r
  rfl

lemma get_run_set_run_ended (s : Store) (rid : String) (now : Nat) :
    get_run (set_run_ended s rid now) rid
      = (get_run s rid).map (fun r =>
          { r with
            ended_at := some now }) := by
  simp only [get_run, set_run_ended]
  refine filter_head_updateRunRecs rid _ ?_ s.runs
  intro r
  rfl

/-- C10: two `GenerationInput`s that differ only in `params` produce
the same mock provider job id, hence the same output artifact path,
and the same synthetic test-pattern colour: the mock provider's output
does not depend on `params`. -/
theorem mock_provider_params_independent (sha256hex : String → String)
    (output_dir : String) (i1 i2 : GenerationInput)
    (hprov : i1.provider = i2.provider) (hmodel : i1.model = i2.model)
    (hver : i1.model_version = i2.model_version)
    (hprompt : i1.prompt_template = i2.prompt_template)
    (hseed : i1.seed = i2.seed)
    (_haudiop : i1.input_audio_path = i2.input_audio_path)
    (haudio : i1.input_audio_sha256 = i2.input_audio_sha256)
    (_hrefp : i1.ref_image_path = i2.ref_image_path)
    (href : i1.ref_image_sha256 = i2.ref_image_sha256) :
    MockProvider.compute_job_id sha256hex i1
        = MockProvider.compute_job_id sha256hex i2
    ∧ MockProvider.output_path sha256hex output_dir i1
        = MockProvider.output_path sha256hex output_dir i2
    ∧ MockProvider.syntheticColor i1.seed
        = MockProvider.syntheticColor i2.seed := by
  have hj : jobIdInput i1 = jobIdInput i2 := by
    simp only [jobIdInput, hprov, hmodel, hver, hprompt, hseed, haudio, href]
  refine ⟨?_, ?_, ?_⟩
  · simp only [MockProvider.compute_job_id, hj]
  · simp only [MockProvider.output_path, MockProvider.compute_job_id, hj]
  · simp only [hseed]

theorem mock_provider_params_independent_witness :
    MockProvider.compute_job_id (fun s => s)
        ⟨"mock", "mock-v1", none, "p", [("quality", "demo")], 42,
          "/a.wav", "ha", none, none⟩
      = MockProvider.compute_job_id (fun s => s)
        ⟨"mock", "mock-v1", none, "p", [("quality", "high")], 42,
          "/a.wav", "ha", none, none⟩ :=
  (mock_provider_params_independent (fun s => s) "out"
    ⟨"mock", "mock-v1", none, "p", [("quality", "demo")], 42,
      "/a.wav", "ha", none, none⟩
    ⟨"mock", "mock-v1", none, "p", [("quality", "high")], 42,
      "/a.wav", "ha", none, none⟩
    rfl rfl rfl rfl rfl rfl rfl rfl rfl).1

/-- C1 (code bug): completing a fresh provider call passes the keyword
arguments `raw_artifact_uri` / `raw_artifact_sha256`, which
`repo.update_provider_call` does not accept (TypeError at runtime), so
no ProviderCall ever reaches status "completed"; the reuse branch
reads `raw_artifact_uri`, which `ProviderCallEntity` does not define
(AttributeError); and an existing call in state "created" is NOT
returned for retry — the code falls through to inserting a new row
with the same idempotency key, which the unique constraint rejects. -/
theorem provider_call_artifact_fields_missing :
    "raw_artifact_uri" ∈ orchestratorCompleteCallKwargs
    ∧ "raw_artifact_uri" ∉ updateProviderCallParams
    ∧ "raw_artifact_sha256" ∈ orchestratorCompleteCallKwargs
    ∧ "raw_artifact_sha256" ∉ updateProviderCallParams
    ∧ orchestratorReuseAttr ∉ providerCallEntityFields
    ∧ callProviderAction (some
        { provider_call_id := "pc1", run_id := "r1", provider := "mock",
          provider_idempotency_key := "k", attempt := 1,
          status := "created" })
        = ProviderStepAction.insertNewRow := by
  refine ⟨?_, ?_, ?_, ?_, ?_, rfl⟩ <;> decide

/-- C2 (code bug): `update_run_status` applies a terminal-to-anything
transition and modifies the run (no monotonicity guard), and
`set_run_started` re-claims a terminal run, in contradiction with the
documented invariant that succeeded/failed are terminal. -/
theorem update_run_status_terminal_transition :
    (update_run_status (Store.mk [c2run] [] [] []) "r1" "failed"
        none none (some "Boom") none).runs
      = [{ c2run with
            status := "failed",
            error_code := some "Boom" }]
    ∧ c2run.status = "succeeded"
    ∧ (set_run_started (Store.mk [c2run] [] [] []) "r1" 5).runs
      = [{ c2run with
            status := "running",
            started_at := some 5 }] :=
  ⟨rfl, rfl, rfl⟩

/-- The general shape behind C2: `update_run_status` succeeds on a run
in ANY current status — including the terminal ones — and rewrites its
status unconditionally. -/
theorem update_run_status_unconditional (s : Store)
    (rid st : String) (a b c d : Option String) (now : Nat)
    (r0 : RunRec) (h : get_run s rid = some r0) :
    get_run (update_run_status s rid st a b c d) rid
      = some { r0 with
          status := st,
          output_canon_uri := assignIfSome a r0.output_canon_uri,
          output_sha256 := assignIfSome b r0.output_sha256,
          error_code := assignIfSome c r0.error_code,
          error_detail := assignIfSome d r0.error_detail }
    ∧ get_run (set_run_started s rid now) rid
      = some { r0 with
          status := "running",
          started_at := some now } := by
  constructor
  · rw [get_run_update_run_status, h]
    rfl
  · rw [get_run_set_run_started, h]
    rfl

theorem update_run_status_unconditional_witness :
    get_run (update_run_status (Store.mk [c2run] [] [] []) "r1" "failed"
        none none none none) "r1"
      = some { c2run with status := "failed" } :=
  ((update_run_status_unconditional (Store.mk [c2run] [] [] [])
    "r1" "failed" none none none none 0 c2run rfl).1)

lemma claimRunsGo_spec (wid : String) (now : Nat) :
    ∀ (runs : List RunRec) (lim : Nat),
      (claimRunsGo runs lim wid now).1.length ≤ lim
      ∧ (∀ r ∈ (claimRunsGo runs lim wid now).1,
          r.status = "running" ∧ r.started_at = some now
            ∧ r.worker_id = some wid)
      ∧ (∀ r ∈ (claimRunsGo runs lim wid now).1,
          ∃ r0 ∈ runs, r0.run_id = r.run_id ∧ r0.status = "queued")
      ∧ (claimRunsGo runs lim wid now).2.length = runs.length
  | [], lim => by simp [claimRunsGo]
  | r :: rest, 0 => by simp [claimRunsGo]
  | r :: rest, lim' + 1 => by
    by_cases h : r.status = "queued"
    · have ih := claimRunsGo_spec wid now rest lim'
      simp only [claimRunsGo, beq_iff_eq, h, if_true]
      refine ⟨by simpa using Nat.succ_le_succ ih.1, ?_, ?_, by simpa using ih.2.2.2⟩
      · intro x hx
        rcases List.mem_cons.1 hx with hx | hx
        · subst hx
          exact ⟨rfl, rfl, rfl⟩
        · exact ih.2.1 x hx
      · intro x hx
        rcases List.mem_cons.1 hx with hx | hx
        · exact ⟨r, List.mem_cons_self r rest, by simp [hx], h⟩
        · obtain ⟨r0, hr0, hid, hst⟩ := ih.2.2.1 x hx
          exact ⟨r0, List.mem_cons_of_mem r hr0, hid, hst⟩
    · have ih := claimRunsGo_spec wid now rest (lim' + 1)
      simp only [claimRunsGo, beq_iff_eq, h, if_false]
      refine ⟨ih.1, ih.2.1, ?_, by simpa using ih.2.2.2⟩
      intro x hx
      obtain ⟨r0, hr0, hid, hst⟩ := ih.2.2.1 x hx
      exact ⟨r0, List.mem_cons_of_mem r hr0, hid, hst⟩

/-- C3 (spec-modelled store operation): `claim_queued_runs` transitions
up to `limit` queued runs to running, stamping `started_at` and
`worker_id`, and the orchestrator's `claim_runs` returns exactly those
claimed runs, each with status "running". -/
theorem claim_runs_spec (s : Store) (lim : Nat) (wid : String)
    (now : Nat) :
    (WorkerOrchestrator.claim_runs s lim wid now).1.length ≤ lim
    ∧ (∀ r ∈ (WorkerOrchestrator.claim_runs s lim wid now).1,
        r.status = "running" ∧ r.started_at = some now
          ∧ r.worker_id = some wid)
    ∧ (∀ r ∈ (WorkerOrchestrator.claim_runs s lim wid now).1,
        ∃ r0 ∈ s.runs, r0.run_id = r.run_id ∧ r0.status = "queued")
    ∧ (WorkerOrchestrator.claim_runs s lim wid now).1
        = (claim_queued_runs s lim wid now).1 := by
  have h := claimRunsGo_spec wid now s.runs lim
  exact ⟨h.1, h.2.1, h.2.2.1, rfl⟩

/-- C9 counterexample: a missing dataset audio file ends the run as
failed with `error_code = "FileNotFoundError"` — the Python exception
class name — not the taxonomy code "InputMissing" the claim states. -/
theorem process_run_error_code_cex :
    get_run (process_run (Store.mk [c9run] [] [] []) c9run c9env) "r1"
      = some { c9run with
          status := "failed",
          error_code := some "FileNotFoundError",
          error_detail := some "Audio file not found: /data/a.wav",
          ended_at := some 7 }
    ∧ "FileNotFoundError" ≠ "InputMissing" :=
  ⟨rfl, by decide⟩

/-- C9 (amended): `process_run` catches every pipeline-step failure,
records it via `update_run_status("failed")` with
`error_code = type(e).__name__` and `error_detail = str(e)` (so the
codes are Python exception class names — `FileNotFoundError` for a
missing dataset file, `RuntimeError` for a normalizer timeout or
non-zero exit, the metrics exception's own class name — not the
spec taxonomy names), and never propagates: `process_run` is a total
function into the store. -/
theorem process_run_catches_failures (s : Store) (run : RunRec)
    (env : RunEnv) (r0 : RunRec)
    (h : get_run s run.run_id = some r0) :
    (∀ e, build_context env.build = Except.error e →
      get_run (process_run s run env) run.run_id
        = some { r0 with
            status := "failed",
            error_code := some e.name,
            error_detail := some e.msg,
            ended_at := some env.now })
    ∧ (∀ e, build_context env.build = Except.ok ()
        → processor_execute env = Except.error e →
      get_run (process_run s run env) run.run_id
        = some { r0 with
            status := "failed",
            started_at :=
              if run.status = "queued" then some env.now
              else r0.started_at,
            error_code := some e.name,
            error_detail := some e.msg,
            ended_at := some env.now })
    ∧ (∀ result, build_context env.build = Except.ok ()
        → processor_execute env = Except.ok result →
      get_run (process_run s run env) run.run_id
        = some { r0 with
            status := "succeeded",
            output_canon_uri := some result.1,
            output_sha256 := some result.2,
            started_at :=
              if run.status = "queued" then some env.now
              else r0.started_at,
            ended_at := some env.now })
    ∧ (env.build.item_found = true → env.build.experiment_found = true
        → env.build.spec_found = true → env.build.audio_exists = false →
      build_context env.build = Except.error
        ⟨"FileNotFoundError",
          "Audio file not found: " ++ env.build.audio_uri⟩)
    ∧ (env.provider_result = Except.ok () → env.norm.raw_exists = true
        → env.norm.audio_exists = true → env.norm.timed_out = true →
      processor_execute env = Except.error
        ⟨"RuntimeError",
          "Normalization timed out for " ++ env.norm.raw_video_path⟩)
    ∧ (env.provider_result = Except.ok () → env.norm.raw_exists = true
        → env.norm.audio_exists = true → env.norm.timed_out = false
        → env.norm.returncode ≠ 0 →
      processor_execute env = Except.error
        ⟨"RuntimeError", "Normalization failed: " ++ env.norm.stderr⟩)
    ∧ (∀ e, env.provider_result = Except.ok ()
        → (∃ a, normalize_video env.norm = Except.ok a)
        → env.metrics_result = Except.error e →
      processor_execute env = Except.error e) := by
  refine ⟨?_, ?_, ?_, ?_, ?_, ?_, ?_⟩
  · intro e he
    simp only [process_run, he]
    rw [get_run_set_run_ended, get_run_update_run_status, h]
    simp [assignIfSome]
  · intro e hb hp
    simp only [process_run, hb, hp]
    by_cases hq : run.status = "queued"
    · simp only [hq, beq_self_eq_true, if_true]
      rw [get_run_set_run_ended, get_run_update_run_status,
        get_run_set_run_started, h]
      simp [assignIfSome, hq]
    · have hq2 : (run.status == "queued") = false := by
        simp [hq]
      simp only [hq2, Bool.false_eq_true, if_false]
      rw [get_run_set_run_ended, get_run_update_run_status, h]
      simp [assignIfSome, hq]
  · intro result hb hp
    simp only [process_run, hb, hp]
    by_cases hq : run.status = "queued"
    · simp only [hq, beq_self_eq_true, if_true]
      rw [get_run_set_run_ended, get_run_update_run_status,
        get_run_set_run_started, h]
      simp [assignIfSome, hq]
    · have hq2 : (run.status == "queued") = false := by
        simp [hq]
      simp only [hq2, Bool.false_eq_true, if_false]
      rw [get_run_set_run_ended, get_run_update_run_status, h]
      simp [assignIfSome, hq]
  · intro h1 h2 h3 h4
    simp [build_context, h1, h2, h3, h4]
  · intro h1 h2 h3 h4
    simp [processor_execute, h1, normalize_video, h2, h3, h4]
  · intro h1 h2 h3 h4 h5
    simp [processor_execute, h1, normalize_video, h2, h3, h4, h5]
  · intro e h1 h2 h3
    obtain ⟨a, ha⟩ := h2
    simp [processor_execute, h1, ha, h3]

theorem process_run_catches_failures_witness :
    get_run (process_run (Store.mk [c9run] [] [] []) c9run c9env)
        c9run.run_id
      = some { c9run with
          status := "failed",
          error_code := some "FileNotFoundError",
          error_detail := some "Audio file not found: /data/a.wav",
          ended_at := some c9env.now } :=
  (process_run_catches_failures (Store.mk [c9run] [] [] []) c9run c9env
    c9run rfl).1
    ⟨"FileNotFoundError", "Audio file not found: /data/a.wav"⟩ rfl

/- Dict lemmas for the aggregation proofs -/

lemma dictGet_cons (k' : String) (v' : Rat) (rest : WinsDict)
    (k : String) :
    dictGet ((k', v') :: rest) k
      = if k' = k then some v' else dictGet rest k := by
  by_cases h : k' = k
  · simp [dictGet, List.find?, h]
  · have hb : (k' == k) = false := by
      simp [h]
    simp [dictGet, List.find?, h, hb]

lemma dictGet_dictSet_same :
    ∀ (d : WinsDict) (k : String) (v : Rat),
      dictGet (dictSet d k v) k = some v
  | [], k, v => by simp [dictSet, dictGet_cons]
  | (k', v') :: rest, k, v => by
    by_cases h : k' = k
    · simp [dictSet, h, dictGet_cons]
    · have hb : (k' == k) = false := by
        simp [h]
      simp only [dictSet, hb, Bool.false_eq_true, if_false]
      rw [dictGet_cons]
      simp [h, dictGet_dictSet_same rest k v]

lemma dictGet_dictSet_other :
    ∀ (d : WinsDict) (k q : String) (v : Rat), q ≠ k →
      dictGet (dictSet d k v) q = dictGet d q
  | [], k, q, v, h => by
    simp [dictSet, dictGet_cons, Ne.symm h, dictGet]
  | (k', v') :: rest, k, q, v, h => by
    by_cases hk : k' = k
    · subst hk
      simp only [dictSet, beq_self_eq_true, if_true]
      rw [dictGet_cons, dictGet_cons]
      simp [Ne.symm h]
    · have hb : (k' == k) = false := by
        simp [hk]
      simp only [dictSet, hb, Bool.false_eq_true, if_false]
      rw [dictGet_cons, dictGet_cons]
      by_cases hq : k' = q
      · simp [hq]
      · simp [hq, dictGet_dictSet_other rest k q v h]

lemma dictIncr_spec (d : WinsDict) (k : String) (delta v : Rat)
    (h : dictGet d k = some v) :
    dictIncr d k delta = Except.ok (dictSet d k (v + delta)) := by
  simp [dictIncr, h]

lemma applyChoice_left_eq (flip : Bool) (l r : String) (wins : WinsDict) :
    applyChoice flip l r "left" wins
      = if flip then dictIncr wins r (1/2) else dictIncr wins l (1/2) :=
  rfl

lemma applyChoice_right_eq (flip : Bool) (l r : String) (wins : WinsDict) :
    applyChoice flip l r "right" wins
      = if flip then dictIncr wins l (1/2) else dictIncr wins r (1/2) :=
  rfl

lemma applyChoice_tie_eq (flip : Bool) (l r : String) (wins : WinsDict) :
    applyChoice flip l r "tie" wins
      = match dictIncr wins l (1/4) with
        | Except.error e => Except.error e
        | Except.ok w => dictIncr w r (1/4) :=
  rfl

lemma applyChoice_other_eq (flip : Bool) (l r choice : String)
    (wins : WinsDict) (h1 : choice ≠ "left") (h2 : choice ≠ "right")
    (h3 : choice ≠ "tie") :
    applyChoice flip l r choice wins = Except.ok wins := by
  have b1 : (choice == "left") = false := by simp [h1]
  have b2 : (choice == "right") = false := by simp [h2]
  have b3 : (choice == "tie") = false := by simp [h3]
  simp [applyChoice, b1, b2, b3]

/-- C5: per-choice credit refinement of the tally against the spec
table (`left` on a flipped task credits the canonical right run 0.5,
`right` symmetrically, `tie` credits 0.25 to each canonical side
regardless of flip, `skip` nothing), together with the S4 scenario:
canonical left r1 / right r2, flip = true, one rating with
realism = left and lipsync = tie gives wins r1 = 0.25, r2 = 0.75,
total_comparisons = 1, win rates 0.125 / 0.375 and
recommended_pick = r2. -/
theorem rating_tally_spec :
    (∀ (flip : Bool) (l r choice : String) (wins : WinsDict)
        (vl vr : Rat),
      l ≠ r → dictGet wins l = some vl → dictGet wins r = some vr →
      ∃ w, applyChoice flip l r choice wins = Except.ok w
        ∧ dictGet w l = some (vl + (specCredit flip choice).1)
        ∧ dictGet w r = some (vr + (specCredit flip choice).2))
    ∧ compute_win_rates ["r1", "r2"]
        [⟨{ task_id := "t1", experiment_id := "e1",
            task_type := "pairwise", left_run_id := "r1",
            right_run_id := "r2", presented_left_run_id := "r2",
            presented_right_run_id := "r1", flip := true,
            status := "done" },
          [{ rating_id := "x1", task_id := "t1", rater_id := "h1",
             choice_realism := "left", choice_lipsync := "tie" }]⟩]
      = Except.ok ⟨[("r1", 1/8), ("r2", 3/8)], some "r2", 1⟩ := by
  constructor
  · intro flip l r choice wins vl vr hlr hl hr
    by_cases hc1 : choice = "left"
    · subst hc1
      cases flip
      · refine ⟨dictSet wins l (vl + 1/2), ?_, ?_, ?_⟩
        · exact dictIncr_spec wins l (1/2) vl hl
        · simp [dictGet_dictSet_same, specCredit]
        · rw [dictGet_dictSet_other wins l r _ (Ne.symm hlr)]
          simp [hr, specCredit]
      · refine ⟨dictSet wins r (vr + 1/2), ?_, ?_, ?_⟩
        · exact dictIncr_spec wins r (1/2) vr hr
        · rw [dictGet_dictSet_other wins r l _ hlr]
          simp [hl, specCredit]
        · simp [dictGet_dictSet_same, specCredit]
    · by_cases hc2 : choice = "right"
      · subst hc2
        cases flip
        · refine ⟨dictSet wins r (vr + 1/2), ?_, ?_, ?_⟩
          · exact dictIncr_spec wins r (1/2) vr hr
          · rw [dictGet_dictSet_other wins r l _ hlr]
            simp [hl, specCredit]
          · simp [dictGet_dictSet_same, specCredit]
        · refine ⟨dictSet wins l (vl + 1/2), ?_, ?_, ?_⟩
          · exact dictIncr_spec wins l (1/2) vl hl
          · simp [dictGet_dictSet_same, specCredit]
          · rw [dictGet_dictSet_other wins l r _ (Ne.symm hlr)]
            simp [hr, specCredit]
      · by_cases hc3 : choice = "tie"
        · subst hc3
          have h2 : dictGet (dictSet wins l (vl + 1/4)) r = some vr := by
            rw [dictGet_dictSet_other wins l r _ (Ne.symm hlr)]
            exact hr
          refine ⟨dictSet (dictSet wins l (vl + 1/4)) r (vr + 1/4),
            ?_, ?_, ?_⟩
          · rw [applyChoice_tie_eq, dictIncr_spec wins l (1/4) vl hl]
            exact dictIncr_spec (dictSet wins l (vl + 1/4)) r (1/4) vr h2
          · rw [dictGet_dictSet_other _ r l _ hlr]
            simp [dictGet_dictSet_same, specCredit, hc1, hc2]
          · simp [dictGet_dictSet_same, specCredit, hc1, hc2]
        · refine ⟨wins, applyChoice_other_eq flip l r choice wins
            hc1 hc2 hc3, ?_, ?_⟩
          · simp [specCredit, hc1, hc2, hc3, hl]
          · simp [specCredit, hc1, hc2, hc3, hr]
  · have ht : tallyAll
        [⟨{ task_id := "t1", experiment_id := "e1",
            task_type := "pairwise", left_run_id := "r1",
            right_run_id := "r2", presented_left_run_id := "r2",
            presented_right_run_id := "r1", flip := true,
            status := "done" },
          [{ rating_id := "x1", task_id := "t1", rater_id := "h1",
             choice_realism := "left", choice_lipsync := "tie" }]⟩]
        (initWins ["r1", "r2"]) 0
      = Except.ok ([("r1", 0 + 1/4), ("r2", 0 + 1/2 + 1/4)], 1) := rfl
    simp only [compute_win_rates, ht, List.map]
    norm_num [dictArgmax, dictArgmaxGo]

theorem rating_tally_spec_witness :
    ∃ w, applyChoice true "a" "b" "left" [("a", 0), ("b", 0)]
        = Except.ok w
      ∧ dictGet w "a" = some (0 + (specCredit true "left").1)
      ∧ dictGet w "b" = some (0 + (specCredit true "left").2) :=
  rating_tally_spec.1 true "a" "b" "left" [("a", 0), ("b", 0)] 0 0
    (by decide) rfl rfl

/-- C6 counterexample: (1) with a non-empty run set but no done tasks
the summary is empty — no `win_rates` entry for run "a" and a null
`recommended_pick`; (2) with done tasks and a win-rate tie the pick is
the first run in store order ("b"), not the lexicographically smallest
("a"); (3) `win_rates` is initialised from the SUCCEEDED run ids only —
the failed run "c" of the experiment gets no entry. -/
theorem summarize_experiment_cex :
    (summarize_experiment (Store.mk [c6runA] [] [] []) "e1"
        = Except.ok ⟨[], none, 0⟩
      ∧ get_succeeded_run_ids_for_experiment
          (Store.mk [c6runA] [] [] []) "e1" = ["a"])
    ∧ (summarize_experiment (Store.mk [c6runB, c6runA] [c6taskBA] [] [])
          "e1"
        = Except.ok ⟨[("b", 0), ("a", 0)], some "b", 0⟩
      ∧ "a" < "b")
    ∧ (summarize_experiment (Store.mk [c6runA, c6runC] [c6taskAC] [] [])
          "e1"
        = Except.ok ⟨[("a", 0)], some "a", 0⟩
      ∧ get_run_ids_for_experiment
          (Store.mk [c6runA, c6runC] [c6taskAC] [] []) "e1"
          = ["a", "c"]) := by
  refine ⟨⟨rfl, rfl⟩, ⟨?_, ?_⟩, ⟨?_, rfl⟩⟩
  · have h1 : get_done_tasks_for_experiment
        (Store.mk [c6runB, c6runA] [c6taskBA] [] []) "e1"
        = [c6taskBA] := rfl
    have h2 : get_succeeded_run_ids_for_experiment
        (Store.mk [c6runB, c6runA] [c6taskBA] [] []) "e1"
        = ["b", "a"] := rfl
    have h3 : get_ratings_for_tasks
        (Store.mk [c6runB, c6runA] [c6taskBA] [] []) [c6taskBA.task_id]
        = [] := rfl
    have ht : tallyAll [⟨c6taskBA, []⟩] (initWins ["b", "a"]) 0
        = Except.ok ([("b", 0), ("a", 0)], 0) := rfl
    simp only [summarize_experiment, h1, h2, List.map, h3,
      List.isEmpty_cons, List.filter_nil, compute_win_rates, ht]
    norm_num [dictArgmax, dictArgmaxGo]
  · rw [String.lt_iff_toList_lt]
    decide
  · have h1 : get_done_tasks_for_experiment
        (Store.mk [c6runA, c6runC] [c6taskAC] [] []) "e1"
        = [c6taskAC] := rfl
    have h2 : get_succeeded_run_ids_for_experiment
        (Store.mk [c6runA, c6runC] [c6taskAC] [] []) "e1"
        = ["a"] := rfl
    have h3 : get_ratings_for_tasks
        (Store.mk [c6runA, c6runC] [c6taskAC] [] []) [c6taskAC.task_id]
        = [] := rfl
    have ht : tallyAll [⟨c6taskAC, []⟩] (initWins ["a"]) 0
        = Except.ok ([("a", 0)], 0) := rfl
    simp only [summarize_experiment, h1, h2, List.map, h3,
      List.isEmpty_cons, List.filter_nil, compute_win_rates, ht]
    norm_num [dictArgmax, dictArgmaxGo]

lemma mem_keys_dictSet :
    ∀ (d : WinsDict) (k : String) (v : Rat) (x : String),
      x ∈ (dictSet d k v).map Prod.fst ↔ x ∈ d.map Prod.fst ∨ x = k
  | [], k, v, x => by simp [dictSet]
  | (k', v') :: rest, k, v, x => by
    by_cases h : k' = k
    · subst h
      simp [dictSet]
      tauto
    · have hb : (k' == k) = false := by simp [h]
      simp [dictSet, hb, mem_keys_dictSet rest k v x]
      tauto

lemma keys_dictSet_of_mem :
    ∀ (d : WinsDict) (k : String) (v : Rat), k ∈ d.map Prod.fst →
      (dictSet d k v).map Prod.fst = d.map Prod.fst
  | [], k, v, h => by simp at h
  | (k', v') :: rest, k, v, h => by
    by_cases hk : k' = k
    · subst hk
      simp [dictSet]
    · have hb : (k' == k) = false := by simp [hk]
      have hmem : k ∈ rest.map Prod.fst := by
        rw [List.map_cons] at h
        rcases List.mem_cons.1 h with h1 | h1
        · exact absurd h1.symm hk
        · exact h1
      simp [dictSet, hb, keys_dictSet_of_mem rest k v hmem]

lemma dictGet_some_mem :
    ∀ (d : WinsDict) (k : String) (v : Rat), dictGet d k = some v →
      k ∈ d.map Prod.fst
  | [], k, v, h => by simp [dictGet] at h
  | (k', v') :: rest, k, v, h => by
    rw [dictGet_cons] at h
    by_cases hk : k' = k
    · simp [hk]
    · rw [if_neg hk] at h
      exact List.mem_cons_of_mem _ (dictGet_some_mem rest k v h)

lemma dictIncr_keys (d : WinsDict) (k : String) (delta : Rat)
    (w : WinsDict) (h : dictIncr d k delta = Except.ok w) :
    w.map Prod.fst = d.map Prod.fst := by
  unfold dictIncr at h
  cases hg : dictGet d k with
  | none => rw [hg] at h; simp at h
  | some v =>
    rw [hg] at h
    simp only [Except.ok.injEq] at h
    subst h
    exact keys_dictSet_of_mem d k _ (dictGet_some_mem d k v hg)

lemma applyChoice_keys (flip : Bool) (l r choice : String)
    (wins w : WinsDict)
    (h : applyChoice flip l r choice wins = Except.ok w) :
    w.map Prod.fst = wins.map Prod.fst := by
  by_cases hc1 : choice = "left"
  · subst hc1
    rw [applyChoice_left_eq] at h
    cases flip
    · exact dictIncr_keys wins l _ w h
    · exact dictIncr_keys wins r _ w h
  · by_cases hc2 : choice = "right"
    · subst hc2
      rw [applyChoice_right_eq] at h
      cases flip
      · exact dictIncr_keys wins r _ w h
      · exact dictIncr_keys wins l _ w h
    · by_cases hc3 : choice = "tie"
      · subst hc3
        rw [applyChoice_tie_eq] at h
        cases hI : dictIncr wins l (1/4) with
        | error e => rw [hI] at h; simp at h
        | ok w1 =>
          rw [hI] at h
          calc w.map Prod.fst = w1.map Prod.fst :=
                dictIncr_keys w1 r _ w h
            _ = wins.map Prod.fst := dictIncr_keys wins l _ w1 hI
      · rw [applyChoice_other_eq flip l r choice wins hc1 hc2 hc3] at h
        simp only [Except.ok.injEq] at h
        subst h
        rfl

lemma applyRating_keys (t : TaskRec) (wins : WinsDict) (r : RatingRec)
    (w : WinsDict) (h : applyRating t wins r = Except.ok w) :
    w.map Prod.fst = wins.map Prod.fst := by
  unfold applyRating at h
  cases h1 : applyChoice t.flip t.left_run_id t.right_run_id
      r.choice_realism wins with
  | error e => rw [h1] at h; simp at h
  | ok w1 =>
    rw [h1] at h
    calc w.map Prod.fst = w1.map Prod.fst := applyChoice_keys _ _ _ _ _ _ h
      _ = wins.map Prod.fst := applyChoice_keys _ _ _ _ _ _ h1

lemma tallyRatings_keys (t : TaskRec) :
    ∀ (ratings : List RatingRec) (wins : WinsDict) (n : Nat)
      (w : WinsDict) (m : Nat),
      tallyRatings t ratings wins n = Except.ok (w, m) →
      w.map Prod.fst = wins.map Prod.fst
  | [], wins, n, w, m, h => by
    simp only [tallyRatings, Except.ok.injEq, Prod.mk.injEq] at h
    rw [h.1]
  | r :: rest, wins, n, w, m, h => by
    simp only [tallyRatings] at h
    cases h1 : applyRating t wins r with
    | error e => rw [h1] at h; simp at h
    | ok w1 =>
      rw [h1] at h
      calc w.map Prod.fst = w1.map Prod.fst :=
            tallyRatings_keys t rest w1 (n + 1) w m h
        _ = wins.map Prod.fst := applyRating_keys t wins r w1 h1

lemma tallyAll_keys :
    ∀ (pairs : List TaskRatingPair) (wins : WinsDict) (n : Nat)
      (w : WinsDict) (m : Nat),
      tallyAll pairs wins n = Except.ok (w, m) →
      w.map Prod.fst = wins.map Prod.fst
  | [], wins, n, w, m, h => by
    simp only [tallyAll, Except.ok.injEq, Prod.mk.injEq] at h
    rw [h.1]
  | p :: rest, wins, n, w, m, h => by
    simp only [tallyAll] at h
    cases h1 : tallyRatings p.task p.ratings wins n with
    | error e => rw [h1] at h; simp at h
    | ok res =>
      rw [h1] at h
      obtain ⟨w1, n1⟩ := res
      calc w.map Prod.fst = w1.map Prod.fst :=
            tallyAll_keys rest w1 n1 w m h
        _ = wins.map Prod.fst := tallyRatings_keys p.task p.ratings wins n w1 n1 h1

lemma mem_keys_foldl :
    ∀ (ids : List String) (acc : WinsDict) (x : String),
      x ∈ (List.foldl (fun d r => dictSet d r 0) acc ids).map Prod.fst
        ↔ x ∈ acc.map Prod.fst ∨ x ∈ ids
  | [], acc, x => by simp
  | i :: rest, acc, x => by
    simp only [List.foldl_cons]
    rw [mem_keys_foldl rest (dictSet acc i 0) x, mem_keys_dictSet]
    simp
    tauto

lemma mem_keys_initWins (ids : List String) (x : String) :
    x ∈ (initWins ids).map Prod.fst ↔ x ∈ ids := by
  unfold initWins
  rw [mem_keys_foldl ids [] x]
  simp

lemma dictArgmaxGo_max :
    ∀ (d : WinsDict) (best : String) (bv : Rat),
      ∃ v, ((dictArgmaxGo best bv d = best ∧ v = bv)
          ∨ (dictArgmaxGo best bv d, v) ∈ d)
        ∧ bv ≤ v ∧ ∀ kv ∈ d, kv.2 ≤ v
  | [], best, bv => ⟨bv, Or.inl ⟨rfl, rfl⟩, le_refl bv, by simp⟩
  | (k, v0) :: rest, best, bv => by
    by_cases h : v0 > bv
    · obtain ⟨v, hd, hb, hall⟩ := dictArgmaxGo_max rest k v0
      simp only [dictArgmaxGo, h, if_true]
      refine ⟨v, ?_, le_of_lt (lt_of_lt_of_le h hb), ?_⟩
      · rcases hd with ⟨he, hv⟩ | hm
        · exact Or.inr (by simp [he, hv])
        · exact Or.inr (List.mem_cons_of_mem _ hm)
      · intro kv hkv
        rcases List.mem_cons.1 hkv with hkv | hkv
        · rw [hkv]
          exact hb
        · exact hall kv hkv
    · obtain ⟨v, hd, hb, hall⟩ := dictArgmaxGo_max rest best bv
      simp only [dictArgmaxGo, h, if_false]
      refine ⟨v, ?_, hb, ?_⟩
      · rcases hd with ⟨he, hv⟩ | hm
        · exact Or.inl ⟨he, hv⟩
        · exact Or.inr (List.mem_cons_of_mem _ hm)
      · intro kv hkv
        rcases List.mem_cons.1 hkv with hkv | hkv
        · rw [hkv]
          exact le_trans (le_of_not_lt h) hb
        · exact hall kv hkv

lemma dictArgmax_max (d : WinsDict) (p : String)
    (h : dictArgmax d = some p) :
    ∃ v, (p, v) ∈ d ∧ ∀ kv ∈ d, kv.2 ≤ v := by
  cases d with
  | nil => simp [dictArgmax] at h
  | cons kv0 rest =>
    obtain ⟨k0, v0⟩ := kv0
    simp only [dictArgmax, Option.some.injEq] at h
    obtain ⟨v, hd, hb, hall⟩ := dictArgmaxGo_max rest k0 v0
    rcases hd with ⟨he, hv⟩ | hm
    · refine ⟨v, ?_, ?_⟩
      · rw [← h, he, hv]
        exact List.mem_cons_self _ _
      · intro kv hkv
        rcases List.mem_cons.1 hkv with hkv | hkv
        · rw [hkv]
          exact le_of_eq hv.symm
        · exact hall kv hkv
    · refine ⟨v, by rw [← h]; exact List.mem_cons_of_mem _ hm, ?_⟩
      intro kv hkv
      rcases List.mem_cons.1 hkv with hkv | hkv
      · rw [hkv]
        exact hb
      · exact hall kv hkv

lemma dictArgmax_eq_none_iff (d : WinsDict) :
    dictArgmax d = none ↔ d = [] := by
  cases d <;> simp [dictArgmax]

lemma compute_win_rates_eq_ok (run_ids : List String)
    (pairs : List TaskRatingPair) (wins : WinsDict) (n : Nat)
    (hT : tallyAll pairs (initWins run_ids) 0 = Except.ok (wins, n)) :
    compute_win_rates run_ids pairs = Except.ok
      { win_rates := wins.map (fun kv =>
          (kv.1, kv.2 / (if n > 0 then ((2 * n : Nat) : Rat) else 1))),
        recommended_pick := dictArgmax (wins.map (fun kv =>
          (kv.1, kv.2 / (if n > 0 then ((2 * n : Nat) : Rat) else 1)))),
        total_comparisons := n } := by
  simp [compute_win_rates, hT]

lemma compute_win_rates_spec (run_ids : List String)
    (pairs : List TaskRatingPair) (summary : HumanSummary)
    (h : compute_win_rates run_ids pairs = Except.ok summary) :
    (∀ rid ∈ run_ids, rid ∈ summary.win_rates.map Prod.fst)
    ∧ (summary.recommended_pick = none ↔ run_ids = [])
    ∧ (∀ p, summary.recommended_pick = some p →
        ∃ v, (p, v) ∈ summary.win_rates
          ∧ ∀ kv ∈ summary.win_rates, kv.2 ≤ v) := by
  cases hT : tallyAll pairs (initWins run_ids) 0 with
  | error e => simp [compute_win_rates, hT] at h
  | ok res =>
    obtain ⟨wins, n⟩ := res
    rw [compute_win_rates_eq_ok run_ids pairs wins n hT] at h
    simp only [Except.ok.injEq] at h
    subst h
    have hkeys : ∀ x : String,
        x ∈ (wins.map (fun kv =>
          (kv.1, kv.2 / (if n > 0 then ((2 * n : Nat) : Rat) else 1)))).map
            Prod.fst
          ↔ x ∈ wins.map Prod.fst := by
      intro x
      simp [List.map_map, Function.comp]
    have hw : wins.map Prod.fst = (initWins run_ids).map Prod.fst :=
      tallyAll_keys pairs (initWins run_ids) 0 wins n hT
    refine ⟨?_, ?_, ?_⟩
    · intro rid hrid
      rw [hkeys, hw, mem_keys_initWins]
      exact hrid
    · rw [dictArgmax_eq_none_iff]
      constructor
      · intro hnil
        have : wins = [] := by
          cases wins with
          | nil => rfl
          | cons a t => simp at hnil
        subst this
        cases hr : run_ids with
        | nil => rfl
        | cons a t =>
          exfalso
          have := (mem_keys_initWins run_ids a).2 (by rw [hr]; simp)
          rw [← hw] at this
          simp at this
      · intro hnil
        subst hnil
        have : wins.map Prod.fst = [] := by
          rw [hw]
          rfl
        cases wins with
        | nil => rfl
        | cons a t => simp at this
    · intro p hp
      exact dictArgmax_max _ p hp

/-- C6 (amended): when the experiment has NO done tasks,
`summarize_experiment` returns the empty summary (empty `win_rates`,
null `recommended_pick`) regardless of the run set; when done tasks
exist, `win_rates` has an entry for every SUCCEEDED run id of the
experiment, `recommended_pick` is null iff the succeeded-run set is
empty, and any pick attains the maximal win rate (the code returns
the first such run in the repo's iteration order, not the
lexicographically smallest). -/
theorem summarize_experiment_spec (s : Store) (eid : String) :
    (get_done_tasks_for_experiment s eid = [] →
      summarize_experiment s eid = Except.ok ⟨[], none, 0⟩)
    ∧ (∀ summary, summarize_experiment s eid = Except.ok summary →
        get_done_tasks_for_experiment s eid ≠ [] →
        (∀ rid ∈ get_succeeded_run_ids_for_experiment s eid,
            rid ∈ summary.win_rates.map Prod.fst)
        ∧ (summary.recommended_pick = none
            ↔ get_succeeded_run_ids_for_experiment s eid = [])
        ∧ (∀ p, summary.recommended_pick = some p →
            ∃ v, (p, v) ∈ summary.win_rates
              ∧ ∀ kv ∈ summary.win_rates, kv.2 ≤ v)) := by
  constructor
  · intro h
    simp [summarize_experiment, h]
  · intro summary hs hne
    have hempty : (get_done_tasks_for_experiment s eid).isEmpty = false := by
      cases hd : get_done_tasks_for_experiment s eid with
      | nil => exact absurd hd hne
      | cons a t => rfl
    rw [summarize_experiment] at hs
    rw [hempty] at hs
    simp only [Bool.false_eq_true, if_false] at hs
    exact compute_win_rates_spec _ _ summary hs

theorem summarize_experiment_spec_witness :
    summarize_experiment (Store.mk [c6runA] [] [] []) "e1"
      = Except.ok ⟨[], none, 0⟩ :=
  (summarize_experiment_spec (Store.mk [c6runA] [] [] []) "e1").1 rfl

theorem compute_status_badge_spec_witness :
    (compute_status_badge true (1/5) 500 1 0 100 0).badge
      ≠ StatusBadge.reject := by
  have h := compute_status_badge_spec true (1/5) 500 1 0 100 0
  exact h.2.2.2.2.2.2.2.2.2.2.2.1 rfl rfl (by norm_num)

theorem claim_runs_spec_witness :
    (WorkerOrchestrator.claim_runs (Store.mk [c9run] [] [] []) 1 "w1" 3).1.length
      ≤ 1 :=
  (claim_runs_spec (Store.mk [c9run] [] [] []) 1 "w1" 3).1

lemma sortPair_comm (a b : String) : sortPair a b = sortPair b a := by
  unfold sortPair
  rcases le_total a b with h | h
  · by_cases h2 : b ≤ a
    · simp [h, h2, le_antisymm h h2]
    · simp [h, h2]
  · by_cases h1 : a ≤ b
    · simp [h, h1, le_antisymm h1 h]
    · simp [h, h1]

lemma sortPair_eq_of {a b c d : String}
    (h : sortPair a b = sortPair c d) :
    (a = c ∧ b = d) ∨ (a = d ∧ b = c) := by
  unfold sortPair at h
  split_ifs at h with h1 h2 h2 <;>
    rcases Prod.mk.injEq .. ▸ h with ⟨e1, e2⟩
  · exact Or.inl ⟨e1, e2⟩
  · exact Or.inr ⟨e1, e2⟩
  · exact Or.inr ⟨e2, e1⟩
  · exact Or.inl ⟨e2, e1⟩

lemma sortPair_left_injective (x : String) :
    Function.Injective (fun y => sortPair x y) := by
  intro y1 y2 h
  rcases sortPair_eq_of h with ⟨_, e⟩ | ⟨e1, e2⟩
  · exact e
  · rw [e2, ← e1]

lemma mem_combinations2 {α : Type} :
    ∀ {l : List α} {p : α × α}, p ∈ combinations2 l →
      p.1 ∈ l ∧ p.2 ∈ l := by
  intro l
  induction l with
  | nil => intro p hp; simp [combinations2] at hp
  | cons x xs ih =>
    intro p hp
    rcases List.mem_append.1 hp with hp | hp
    · obtain ⟨y, hy, he⟩ := List.mem_map.1 hp
      rw [← he]
      exact ⟨List.mem_cons_self x xs, List.mem_cons_of_mem x hy⟩
    · obtain ⟨h1, h2⟩ := ih hp
      exact ⟨List.mem_cons_of_mem x h1, List.mem_cons_of_mem x h2⟩

lemma combinations2_ne {α : Type} :
    ∀ {l : List α}, l.Nodup → ∀ p ∈ combinations2 l, p.1 ≠ p.2 := by
  intro l
  induction l with
  | nil => intro _ p hp; simp [combinations2] at hp
  | cons x xs ih =>
    intro hn p hp
    rcases List.mem_append.1 hp with hp | hp
    · obtain ⟨y, hy, he⟩ := List.mem_map.1 hp
      rw [← he]
      intro hxy
      have hxy2 : x = y := hxy
      exact (List.nodup_cons.1 hn).1 (by rw [hxy2]; exact hy)
    · exact ih (List.nodup_cons.1 hn).2 p hp

lemma countPeq_eq_zero_of_not_mem {α : Type} [DecidableEq α] :
    ∀ (l : List α) (a : α), a ∉ l →
      l.countP (fun x => decide (x = a)) = 0
  | [], a, _ => rfl
  | x :: rest, a, h => by
    rw [List.countP_cons]
    have hx : ¬ x = a := fun he => h (he ▸ List.mem_cons_self x rest)
    simp [hx,
      countPeq_eq_zero_of_not_mem rest a (fun hm => h (List.mem_cons_of_mem x hm))]

lemma countPeq_eq_one_of_nodup_mem {α : Type} [DecidableEq α] :
    ∀ (l : List α) (a : α), l.Nodup → a ∈ l →
      l.countP (fun x => decide (x = a)) = 1
  | [], a, _, ha => by simp at ha
  | x :: rest, a, hn, ha => by
    rw [List.countP_cons]
    by_cases hx : x = a
    · subst hx
      rw [countPeq_eq_zero_of_not_mem rest x (List.nodup_cons.1 hn).1]
      simp
    · have hmem : a ∈ rest := by
        rcases List.mem_cons.1 ha with h | h
        · exact absurd h.symm hx
        · exact h
      rw [countPeq_eq_one_of_nodup_mem rest a (List.nodup_cons.1 hn).2 hmem]
      simp [hx]

lemma countPeq_map {α β : Type} [DecidableEq α] [DecidableEq β]
    (f : α → β) (hf : Function.Injective f) :
    ∀ (l : List α) (a : α),
      (l.map f).countP (fun y => decide (y = f a))
        = l.countP (fun x => decide (x = a))
  | [], a => rfl
  | x :: rest, a => by
    simp only [List.map_cons, List.countP_cons,
      countPeq_map f hf rest a]
    by_cases hx : x = a
    · simp [hx]
    · have : ¬ f x = f a := fun he => hx (hf he)
      simp [hx, this]

lemma countPeq_filter_pos {α : Type} [DecidableEq α] :
    ∀ (l : List α) (p : α → Bool) (a : α), p a = true →
      (l.filter p).countP (fun x => decide (x = a))
        = l.countP (fun x => decide (x = a))
  | [], p, a, h => rfl
  | x :: rest, p, a, h => by
    cases hpx : p x with
    | true =>
      simp only [List.filter_cons, hpx, if_true]
      rw [List.countP_cons, List.countP_cons,
        countPeq_filter_pos rest p a h]
    | false =>
      simp only [List.filter_cons, hpx, Bool.false_eq_true, if_false]
      rw [countPeq_filter_pos rest p a h, List.countP_cons]
      have hxa : ¬ x = a := by
        intro he
        rw [he, h] at hpx
        cases hpx
      simp [hxa]

lemma countPeq_filter_neg {α : Type} [DecidableEq α] (l : List α)
    (p : α → Bool) (a : α) (h : p a = false) :
    (l.filter p).countP (fun x => decide (x = a)) = 0 := by
  rw [List.countP_eq_zero]
  intro x hx hdec
  have hxa : x = a := by simpa using hdec
  have := List.of_mem_filter hx
  rw [hxa, h] at this
  cases this

lemma countPeq_combinations2 :
    ∀ (l : List String), l.Nodup → ∀ a b, a ≠ b → a ∈ l → b ∈ l →
      ((combinations2 l).map (fun q => sortPair q.1 q.2)).countP
        (fun p => decide (p = sortPair a b)) = 1
  | [], _, a, b, _, ha, _ => by simp at ha
  | x :: xs, hn, a, b, hab, ha, hb => by
    have hx : x ∉ xs := (List.nodup_cons.1 hn).1
    have hxs : xs.Nodup := (List.nodup_cons.1 hn).2
    simp only [combinations2, List.map_append, List.countP_append,
      List.map_map]
    have hcomp : ((fun q : String × String => sortPair q.1 q.2)
        ∘ (fun y => (x, y))) = fun y => sortPair x y := rfl
    rw [hcomp]
    by_cases hax : a = x
    · subst hax
      have hbxs : b ∈ xs := by
        rcases List.mem_cons.1 hb with h | h
        · exact absurd h.symm hab
        · exact h
      have h1 : (xs.map (fun y => sortPair a y)).countP
          (fun p => decide (p = sortPair a b)) = 1 :=
        (countPeq_map (fun y => sortPair a y)
          (sortPair_left_injective a) xs b).trans
          (countPeq_eq_one_of_nodup_mem xs b hxs hbxs)
      have h2 : ((combinations2 xs).map
          (fun q => sortPair q.1 q.2)).countP
          (fun p => decide (p = sortPair a b)) = 0 := by
        rw [List.countP_eq_zero]
        intro q2 hm hdec
        obtain ⟨q, hq, he⟩ := List.mem_map.1 hm
        have he2 : sortPair q.1 q.2 = sortPair a b := by
          rw [he]
          simpa using hdec
        have hmem := mem_combinations2 hq
        rcases sortPair_eq_of he2 with ⟨e1, _⟩ | ⟨_, e2⟩
        · exact hx (e1 ▸ hmem.1)
        · exact hx (e2 ▸ hmem.2)
      omega
    · by_cases hbx : b = x
      · subst hbx
        have haxs : a ∈ xs := by
          rcases List.mem_cons.1 ha with h | h
          · exact absurd h hax
          · exact h
        have h1 : (xs.map (fun y => sortPair b y)).countP
            (fun p => decide (p = sortPair a b)) = 1 := by
          rw [sortPair_comm a b]
          exact (countPeq_map (fun y => sortPair b y)
            (sortPair_left_injective b) xs a).trans
            (countPeq_eq_one_of_nodup_mem xs a hxs haxs)
        have h2 : ((combinations2 xs).map
            (fun q => sortPair q.1 q.2)).countP
            (fun p => decide (p = sortPair a b)) = 0 := by
          rw [List.countP_eq_zero]
          intro q2 hm hdec
          obtain ⟨q, hq, he⟩ := List.mem_map.1 hm
          have he2 : sortPair q.1 q.2 = sortPair a b := by
            rw [he]
            simpa using hdec
          have hmem := mem_combinations2 hq
          rcases sortPair_eq_of he2 with ⟨_, e2⟩ | ⟨e1, _⟩
          · exact hx (e2 ▸ hmem.2)
          · exact hx (e1 ▸ hmem.1)
        omega
      · have h1 : (xs.map (fun y => sortPair x y)).countP
            (fun p => decide (p = sortPair a b)) = 0 := by
          rw [List.countP_eq_zero]
          intro q2 hm hdec
          obtain ⟨y, _, he⟩ := List.mem_map.1 hm
          have he2 : sortPair x y = sortPair a b := by
            rw [he]
            simpa using hdec
          rcases sortPair_eq_of he2 with ⟨e1, _⟩ | ⟨e2, _⟩
          · exact hax e1.symm
          · exact hbx e2.symm
        have h2 := countPeq_combinations2 xs hxs a b hab
          (by rcases List.mem_cons.1 ha with h | h
              · exact absurd h hax
              · exact h)
          (by rcases List.mem_cons.1 hb with h | h
              · exact absurd h hbx
              · exact h)
        omega

lemma genTasksGo_pairs (eid : String) (existing : List (String × String))
    (flips : Nat → Bool) (ids : Nat → String) :
    ∀ (l : List (String × String)) (n : Nat),
      (genTasksGo eid existing flips ids l n).map
        (fun t => sortPair t.left_run_id t.right_run_id)
      = (l.map (fun q => sortPair q.1 q.2)).filter
          (fun p => decide (p ∉ existing))
  | [], n => rfl
  | (a, b) :: rest, n => by
    by_cases hm : sortPair a b ∈ existing
    · have hd : (decide (sortPair a b ∉ existing)) = false := by
        simp [hm]
      simp only [genTasksGo, if_pos hm, List.map_cons, List.filter_cons,
        hd, Bool.false_eq_true, if_false]
      exact genTasksGo_pairs eid existing flips ids rest n
    · have hd : (decide (sortPair a b ∉ existing)) = true := by
        simp [hm]
      simp only [genTasksGo, if_neg hm, List.map_cons, List.filter_cons,
        hd, if_true]
      rw [genTasksGo_pairs eid existing flips ids rest (n + 1)]
      rfl

lemma genTasksGo_mem (eid : String) (existing : List (String × String))
    (flips : Nat → Bool) (ids : Nat → String) :
    ∀ (l : List (String × String)) (n : Nat) (t : TaskRec),
      t ∈ genTasksGo eid existing flips ids l n →
      t.experiment_id = eid
        ∧ ∃ q ∈ l, t.left_run_id = q.1 ∧ t.right_run_id = q.2
  | [], n, t, h => by simp [genTasksGo] at h
  | (a, b) :: rest, n, t, h => by
    by_cases hm : sortPair a b ∈ existing
    · rw [genTasksGo, if_pos hm] at h
      obtain ⟨he, q, hq, hql, hqr⟩ :=
        genTasksGo_mem eid existing flips ids rest n t h
      exact ⟨he, q, List.mem_cons_of_mem _ hq, hql, hqr⟩
    · rw [genTasksGo, if_neg hm] at h
      rcases List.mem_cons.1 h with h | h
      · subst h
        exact ⟨rfl, (a, b), List.mem_cons_self _ _, rfl, rfl⟩
      · obtain ⟨he, q, hq, hql, hqr⟩ :=
          genTasksGo_mem eid existing flips ids rest (n + 1) t h
        exact ⟨he, q, List.mem_cons_of_mem _ hq, hql, hqr⟩

lemma genTasksGo_eq_nil (eid : String) (existing : List (String × String))
    (flips : Nat → Bool) (ids : Nat → String) :
    ∀ (l : List (String × String)) (n : Nat),
      (∀ q ∈ l, sortPair q.1 q.2 ∈ existing) →
      genTasksGo eid existing flips ids l n = []
  | [], n, _ => rfl
  | (a, b) :: rest, n, h => by
    have hm := h (a, b) (List.mem_cons_self _ _)
    rw [genTasksGo, if_pos hm]
    exact genTasksGo_eq_nil eid existing flips ids rest n
      (fun q hq => h q (List.mem_cons_of_mem _ hq))

lemma countP_task_pair (eid : String) (p : String × String) :
    ∀ (l : List TaskRec),
      l.countP (fun t => t.experiment_id == eid
          && decide (sortPair t.left_run_id t.right_run_id = p))
      = ((l.filter (fun t => t.experiment_id == eid)).map
          (fun t => sortPair t.left_run_id t.right_run_id)).countP
          (fun q => decide (q = p))
  | [] => rfl
  | t :: rest => by
    by_cases he : t.experiment_id = eid
    · have hb : (t.experiment_id == eid) = true := by simp [he]
      by_cases hp : sortPair t.left_run_id t.right_run_id = p
      · simp [List.countP_cons, List.filter_cons, hb, hp,
          countP_task_pair eid p rest]
      · simp [List.countP_cons, List.filter_cons, hb, hp,
          countP_task_pair eid p rest]
    · have hb : (t.experiment_id == eid) = false := by simp [he]
      simp [List.countP_cons, List.filter_cons, hb,
        countP_task_pair eid p rest]

lemma not_length_lt_two {α : Type} (l : List α) (a b : α) (ha : a ∈ l)
    (hb : b ∈ l) (hab : a ≠ b) : ¬ l.length < 2 := by
  cases l with
  | nil => simp at ha
  | cons x rest =>
    cases rest with
    | nil =>
      simp only [List.mem_singleton] at ha hb
      exact absurd (ha.trans hb.symm) hab
    | cons y t =>
      simp only [List.length_cons]
      omega

/-- C7: `generate_pairwise_tasks` creates nothing when fewer than two
succeeded runs exist; after it completes, exactly one task of the
experiment exists for every unordered pair of distinct succeeded
runs; newly created tasks are never self-pairs; and an immediately
repeated call over the same succeeded-run set creates nothing. -/
theorem generate_pairs_spec (flips flips2 : Nat → Bool)
    (ids ids2 : Nat → String) (s : Store) (eid : String)
    (hnodup : (get_succeeded_run_ids_for_experiment s eid).Nodup)
    (hexist : (get_existing_task_pairs s eid).Nodup) :
    ((get_succeeded_run_ids_for_experiment s eid).length < 2 →
      (generate_pairwise_tasks flips ids s eid).1.created_count = 0
      ∧ (generate_pairwise_tasks flips ids s eid).2 = s)
    ∧ (∀ a b, a ≠ b →
        a ∈ get_succeeded_run_ids_for_experiment s eid →
        b ∈ get_succeeded_run_ids_for_experiment s eid →
        (generate_pairwise_tasks flips ids s eid).2.tasks.countP
          (fun t => t.experiment_id == eid
            && decide (sortPair t.left_run_id t.right_run_id
                = sortPair a b)) = 1)
    ∧ (∀ t ∈ (generate_pairwise_tasks flips ids s eid).2.tasks,
        t ∉ s.tasks → t.left_run_id ≠ t.right_run_id)
    ∧ (generate_pairwise_tasks flips2 ids2
        (generate_pairwise_tasks flips ids s eid).2 eid).1.created_count
        = 0 := by
  have hfc : (genTasksGo eid (get_existing_task_pairs s eid) flips ids
      (combinations2 (get_succeeded_run_ids_for_experiment s eid))
      0).filter (fun t => t.experiment_id == eid)
      = genTasksGo eid (get_existing_task_pairs s eid) flips ids
        (combinations2 (get_succeeded_run_ids_for_experiment s eid)) 0 :=
    List.filter_eq_self.mpr (fun t ht => by
      simp [(genTasksGo_mem eid (get_existing_task_pairs s eid) flips ids
        (combinations2 (get_succeeded_run_ids_for_experiment s eid))
        0 t ht).1])
  refine ⟨?_, ?_, ?_, ?_⟩
  · intro hlen
    constructor
    · simp only [generate_pairwise_tasks, if_pos hlen]
    · simp only [generate_pairwise_tasks, if_pos hlen]
  · intro a b hab ha hb
    have hlen := not_length_lt_two _ a b ha hb hab
    have hstore : (generate_pairwise_tasks flips ids s eid).2.tasks
        = s.tasks ++ genTasksGo eid (get_existing_task_pairs s eid)
            flips ids (combinations2
              (get_succeeded_run_ids_for_experiment s eid)) 0 := by
      simp only [generate_pairwise_tasks, if_neg hlen]
    rw [hstore, List.countP_append, countP_task_pair eid (sortPair a b),
      countP_task_pair eid (sortPair a b), hfc,
      genTasksGo_pairs eid (get_existing_task_pairs s eid) flips ids]
    have hdef : (s.tasks.filter (fun t => t.experiment_id == eid)).map
        (fun t => sortPair t.left_run_id t.right_run_id)
        = get_existing_task_pairs s eid := rfl
    rw [hdef]
    by_cases hp : sortPair a b ∈ get_existing_task_pairs s eid
    · rw [countPeq_eq_one_of_nodup_mem _ _ hexist hp,
        countPeq_filter_neg _ _ _ (by simp [hp])]
    · rw [countPeq_eq_zero_of_not_mem _ _ hp,
        countPeq_filter_pos _ _ _ (by simp [hp]),
        countPeq_combinations2 _ hnodup a b hab ha hb]
  · intro t ht hnot
    by_cases hlen :
        (get_succeeded_run_ids_for_experiment s eid).length < 2
    · have hs2 : (generate_pairwise_tasks flips ids s eid).2 = s := by
        simp only [generate_pairwise_tasks, if_pos hlen]
      rw [hs2] at ht
      exact absurd ht hnot
    · have hstore : (generate_pairwise_tasks flips ids s eid).2.tasks
          = s.tasks ++ genTasksGo eid (get_existing_task_pairs s eid)
              flips ids (combinations2
                (get_succeeded_run_ids_for_experiment s eid)) 0 := by
        simp only [generate_pairwise_tasks, if_neg hlen]
      rw [hstore] at ht
      rcases List.mem_append.1 ht with ht | ht
      · exact absurd ht hnot
      · obtain ⟨_, q, hq, hql, hqr⟩ := genTasksGo_mem eid
          (get_existing_task_pairs s eid) flips ids
          (combinations2 (get_succeeded_run_ids_for_experiment s eid))
          0 t ht
        rw [hql, hqr]
        exact combinations2_ne hnodup q hq
  · by_cases hlen :
        (get_succeeded_run_ids_for_experiment s eid).length < 2
    · have hs2 : (generate_pairwise_tasks flips ids s eid).2 = s := by
        simp only [generate_pairwise_tasks, if_pos hlen]
      rw [hs2]
      simp only [generate_pairwise_tasks, if_pos hlen]
    · have htasks2 : (generate_pairwise_tasks flips ids s eid).2.tasks
          = s.tasks ++ genTasksGo eid (get_existing_task_pairs s eid)
              flips ids (combinations2
                (get_succeeded_run_ids_for_experiment s eid)) 0 := by
        simp only [generate_pairwise_tasks, if_neg hlen]
      have hruns2 : get_succeeded_run_ids_for_experiment
          (generate_pairwise_tasks flips ids s eid).2 eid
          = get_succeeded_run_ids_for_experiment s eid := by
        simp only [generate_pairwise_tasks, if_neg hlen]
        rfl
      have hex2 : get_existing_task_pairs
          (generate_pairwise_tasks flips ids s eid).2 eid
          = get_existing_task_pairs s eid
            ++ (genTasksGo eid (get_existing_task_pairs s eid) flips ids
              (combinations2
                (get_succeeded_run_ids_for_experiment s eid)) 0).map
              (fun t => sortPair t.left_run_id t.right_run_id) := by
        have hrfl : get_existing_task_pairs
            (generate_pairwise_tasks flips ids s eid).2 eid
            = (((generate_pairwise_tasks flips ids s eid).2.tasks).filter
                (fun t => t.experiment_id == eid)).map
                (fun t => sortPair t.left_run_id t.right_run_id) := rfl
        rw [hrfl, htasks2, List.filter_append, List.map_append, hfc]
        rfl
      generalize hG : (generate_pairwise_tasks flips ids s eid).2 = S2
      rw [hG] at hruns2 hex2
      simp only [generate_pairwise_tasks, hruns2, if_neg hlen, hex2]
      rw [genTasksGo_eq_nil]
      · rfl
      · intro q hq
        by_cases hm : sortPair q.1 q.2 ∈ get_existing_task_pairs s eid
        · exact List.mem_append_left _ hm
        · refine List.mem_append_right _ ?_
          rw [genTasksGo_pairs eid (get_existing_task_pairs s eid)
            flips ids]
          exact List.mem_filter.mpr
            ⟨List.mem_map.mpr ⟨q, hq, rfl⟩, by simp [hm]⟩

theorem generate_pairs_spec_witness :
    (generate_pairwise_tasks (fun _ => false) (fun n => natRepr n)
        (Store.mk [c6runB, c6runA] [] [] []) "e1").2.tasks.countP
        (fun t => t.experiment_id == "e1"
          && decide (sortPair t.left_run_id t.right_run_id
              = sortPair "b" "a")) = 1 :=
  ((generate_pairs_spec (fun _ => false) (fun _ => true)
      (fun n => natRepr n) (fun n => natRepr n)
      (Store.mk [c6runB, c6runA] [] [] []) "e1"
      (by decide) (by decide)).2.1) "b" "a" (by decide) (by decide)
    (by decide)

/- Decimal representation lemmas for C8 -/

lemma digitChar_toNat (n : Nat) (h : n < 10) :
    (digitChar n).toNat = 48 + n := by
  interval_cases n <;> decide

lemma natDecimal_digits :
    ∀ (n : Nat), ∀ c ∈ natDecimal n, 48 ≤ c.toNat ∧ c.toNat ≤ 57 := by
  intro n
  induction n using Nat.strong_induction_on with
  | _ n ih =>
    intro c hc
    rw [natDecimal] at hc
    by_cases h : n < 10
    · rw [dif_pos h] at hc
      rcases List.mem_singleton.1 hc with rfl
      rw [digitChar_toNat n h]
      omega
    · rw [dif_neg h] at hc
      rcases List.mem_append.1 hc with hc | hc
      · exact ih (n / 10) (Nat.div_lt_self (by omega) (by omega)) c hc
      · rcases List.mem_singleton.1 hc with rfl
        rw [digitChar_toNat (n % 10) (Nat.mod_lt n (by omega))]
        omega

lemma natDecimal_ne_nil (n : Nat) : natDecimal n ≠ [] := by
  rw [natDecimal]
  by_cases h : n < 10
  · rw [dif_pos h]
    simp
  · rw [dif_neg h]
    simp

lemma natDecimal_decode (n : Nat) :
    (natDecimal n).foldl (fun a c => 10 * a + (c.toNat - 48)) 0 = n := by
  induction n using Nat.strong_induction_on with
  | _ n ih =>
    rw [natDecimal]
    by_cases h : n < 10
    · rw [dif_pos h]
      simp [digitChar_toNat n h]
    · rw [dif_neg h]
      rw [List.foldl_append]
      rw [ih (n / 10) (Nat.div_lt_self (by omega) (by omega))]
      simp only [List.foldl_cons, List.foldl_nil]
      rw [digitChar_toNat (n % 10) (Nat.mod_lt n (by omega))]
      omega

lemma natDecimal_inj (m n : Nat) (h : natDecimal m = natDecimal n) :
    m = n := by
  rw [← natDecimal_decode m, ← natDecimal_decode n, h]

lemma intRepr_data (i : Int) :
    (intRepr i).data
      = if i < 0 then '-' :: natDecimal (-i).toNat
        else natDecimal i.toNat := by
  unfold intRepr natRepr
  by_cases h : i < 0
  · rw [if_pos h, if_pos h]
    rfl
  · rw [if_neg h, if_neg h]

lemma intRepr_inj (i j : Int)
    (h : (intRepr i).data = (intRepr j).data) : i = j := by
  rw [intRepr_data, intRepr_data] at h
  by_cases hi : i < 0
  · by_cases hj : j < 0
    · rw [if_pos hi, if_pos hj] at h
      injection h with _ h2
      have := natDecimal_inj _ _ h2
      omega
    · rw [if_pos hi, if_neg hj] at h
      exfalso
      have hm : '-' ∈ natDecimal j.toNat := by
        rw [← h]
        exact List.mem_cons_self _ _
      have := natDecimal_digits j.toNat '-' hm
      revert this
      decide
  · by_cases hj : j < 0
    · rw [if_neg hi, if_pos hj] at h
      exfalso
      have hm : '-' ∈ natDecimal i.toNat := by
        rw [h]
        exact List.mem_cons_self _ _
      have := natDecimal_digits i.toNat '-' hm
      revert this
      decide
    · rw [if_neg hi, if_neg hj] at h
      have := natDecimal_inj _ _ h
      omega

lemma append_delim_inj (d : Char) :
    ∀ (x1 x2 r1 r2 : List Char), d ∉ x1 → d ∉ x2 →
      x1 ++ d :: r1 = x2 ++ d :: r2 → x1 = x2 ∧ r1 = r2
  | [], [], r1, r2, _, _, h => by
    simp only [List.nil_append] at h
    injection h with _ h2
    exact ⟨rfl, h2⟩
  | [], x :: t, r1, r2, _, h2, h => by
    simp only [List.nil_append, List.cons_append] at h
    injection h with h1 _
    exact absurd (h1 ▸ List.mem_cons_self x t) h2
  | x :: t, [], r1, r2, h1, _, h => by
    simp only [List.nil_append, List.cons_append] at h
    injection h with hx _
    exact absurd (hx ▸ List.mem_cons_self x t) h1
  | x :: t, y :: u, r1, r2, h1, h2, h => by
    simp only [List.cons_append] at h
    injection h with hx hrest
    obtain ⟨ht, hr⟩ := append_delim_inj d t u r1 r2
      (fun hm => h1 (List.mem_cons_of_mem _ hm))
      (fun hm => h2 (List.mem_cons_of_mem _ hm)) hrest
    exact ⟨by rw [hx, ht], hr⟩

lemma unhex_hexDigitChar (k : Nat) (h : k < 16) :
    unhex (hexDigitChar k) = k := by
  interval_cases k <;> decide

lemma hex4val_hex4 (n : Nat) (h : n < 65536) :
    hex4val (hexDigitChar (n / 4096 % 16)) (hexDigitChar (n / 256 % 16))
      (hexDigitChar (n / 16 % 16)) (hexDigitChar (n % 16)) = n := by
  unfold hex4val
  rw [unhex_hexDigitChar _ (Nat.mod_lt _ (by omega)),
    unhex_hexDigitChar _ (Nat.mod_lt _ (by omega)),
    unhex_hexDigitChar _ (Nat.mod_lt _ (by omega)),
    unhex_hexDigitChar _ (Nat.mod_lt _ (by omega))]
  omega

lemma char_valid_toNat (c : Char) :
    c.toNat < 55296 ∨ (57344 ≤ c.toNat ∧ c.toNat < 1114112) := by
  rcases c.valid with h | ⟨h1, h2⟩
  · exact Or.inl h
  · exact Or.inr ⟨h1, h2⟩

lemma escDecode_quote_step (t : List Char) :
    escDecode ('"' :: t) = some ([], t) := by
  rw [escDecode.eq_def]
  simp

lemma escDecode_plain_step (c : Char) (t : List Char) (h1 : ¬ c = '"')
    (h2 : ¬ c = '\\') :
    escDecode (c :: t) = (escDecode t).map (fun p => (c :: p.1, p.2)) := by
  rw [escDecode.eq_def]
  simp [h1, h2]

lemma escDecode_u_single (d1 d2 d3 d4 : Char) (t : List Char)
    (hs : ¬ (55296 ≤ hex4val d1 d2 d3 d4 ∧ hex4val d1 d2 d3 d4 < 56320)) :
    escDecode ('\\' :: 'u' :: d1 :: d2 :: d3 :: d4 :: t)
      = (escDecode t).map
          (fun p => (Char.ofNat (hex4val d1 d2 d3 d4) :: p.1, p.2)) := by
  rw [escDecode.eq_def]
  simp [hs]

lemma escDecode_u_pair (d1 d2 d3 d4 e1 e2 g1 g2 g3 g4 : Char)
    (t : List Char)
    (hs : 55296 ≤ hex4val d1 d2 d3 d4 ∧ hex4val d1 d2 d3 d4 < 56320) :
    escDecode ('\\' :: 'u' :: d1 :: d2 :: d3 :: d4
        :: e1 :: e2 :: g1 :: g2 :: g3 :: g4 :: t)
      = (escDecode t).map (fun p =>
          (Char.ofNat (65536 + 1024 * (hex4val d1 d2 d3 d4 - 55296)
            + (hex4val g1 g2 g3 g4 - 56320)) :: p.1, p.2)) := by
  rw [escDecode.eq_def]
  simp [hs.1, hs.2]

lemma escDecode_roundtrip : ∀ (l r : List Char),
    escDecode (jsonEscapeList l ++ '"' :: r) = some (l, r)
  | [], r => by
    show escDecode ('"' :: r) = some ([], r)
    rw [escDecode_quote_step]
  | c :: l, r => by
    have ih := escDecode_roundtrip l r
    have hlist : jsonEscapeList (c :: l) ++ '"' :: r
        = jsonEscapeChar c ++ (jsonEscapeList l ++ '"' :: r) := by
      simp [jsonEscapeList]
    rw [hlist]
    by_cases h1 : c = '"'
    · subst h1
      rw [show jsonEscapeChar '"' = ['\\', '"'] from rfl]
      rw [escDecode.eq_def]
      simp [ih]
    by_cases h2 : c = '\\'
    · subst h2
      rw [show jsonEscapeChar '\\' = ['\\', '\\'] from rfl]
      rw [escDecode.eq_def]
      simp [ih]
    by_cases h3 : c = '\n'
    · subst h3
      rw [show jsonEscapeChar '\n' = ['\\', 'n'] from rfl]
      rw [escDecode.eq_def]
      simp [ih]
    by_cases h4 : c = '\r'
    · subst h4
      rw [show jsonEscapeChar '\r' = ['\\', 'r'] from rfl]
      rw [escDecode.eq_def]
      simp [ih]
    by_cases h5 : c = '\t'
    · subst h5
      rw [show jsonEscapeChar '\t' = ['\\', 't'] from rfl]
      rw [escDecode.eq_def]
      simp [ih]
    by_cases h6 : c.toNat = 8
    · rw [jsonEscapeChar, if_neg h1, if_neg h2, if_neg h3, if_neg h4,
        if_neg h5, if_pos h6]
      rw [escDecode.eq_def]
      simp [ih]
      rw [← h6, Char.ofNat_toNat]
    by_cases h7 : c.toNat = 12
    · rw [jsonEscapeChar, if_neg h1, if_neg h2, if_neg h3, if_neg h4,
        if_neg h5, if_neg h6, if_pos h7]
      rw [escDecode.eq_def]
      simp [ih]
      rw [← h7, Char.ofNat_toNat]
    by_cases h8 : c.toNat < 32
    · rw [jsonEscapeChar, if_neg h1, if_neg h2, if_neg h3, if_neg h4,
        if_neg h5, if_neg h6, if_neg h7, if_pos h8]
      rw [show uEscape c.toNat ++ (jsonEscapeList l ++ '"' :: r)
          = '\\' :: 'u' :: hexDigitChar (c.toNat / 4096 % 16)
            :: hexDigitChar (c.toNat / 256 % 16)
            :: hexDigitChar (c.toNat / 16 % 16)
            :: hexDigitChar (c.toNat % 16)
            :: (jsonEscapeList l ++ '"' :: r) from rfl]
      have hv : hex4val (hexDigitChar (c.toNat / 4096 % 16))
          (hexDigitChar (c.toNat / 256 % 16))
          (hexDigitChar (c.toNat / 16 % 16))
          (hexDigitChar (c.toNat % 16)) = c.toNat :=
        hex4val_hex4 c.toNat (by omega)
      have hns : ¬ (55296 ≤ hex4val (hexDigitChar (c.toNat / 4096 % 16))
          (hexDigitChar (c.toNat / 256 % 16))
          (hexDigitChar (c.toNat / 16 % 16))
          (hexDigitChar (c.toNat % 16))
          ∧ hex4val (hexDigitChar (c.toNat / 4096 % 16))
            (hexDigitChar (c.toNat / 256 % 16))
            (hexDigitChar (c.toNat / 16 % 16))
            (hexDigitChar (c.toNat % 16)) < 56320) := by
        rw [hv]
        omega
      rw [escDecode_u_single _ _ _ _ _ hns, hv, ih]
      simp [Char.ofNat_toNat]
    by_cases h9 : c.toNat < 127
    · rw [jsonEscapeChar, if_neg h1, if_neg h2, if_neg h3, if_neg h4,
        if_neg h5, if_neg h6, if_neg h7, if_neg h8, if_pos h9]
      rw [List.singleton_append, escDecode_plain_step c _ h1 h2, ih]
      rfl
    by_cases h10 : c.toNat < 65536
    · rw [jsonEscapeChar, if_neg h1, if_neg h2, if_neg h3, if_neg h4,
        if_neg h5, if_neg h6, if_neg h7, if_neg h8, if_neg h9,
        if_pos h10]
      rw [show uEscape c.toNat ++ (jsonEscapeList l ++ '"' :: r)
          = '\\' :: 'u' :: hexDigitChar (c.toNat / 4096 % 16)
            :: hexDigitChar (c.toNat / 256 % 16)
            :: hexDigitChar (c.toNat / 16 % 16)
            :: hexDigitChar (c.toNat % 16)
            :: (jsonEscapeList l ++ '"' :: r) from rfl]
      have hv : hex4val (hexDigitChar (c.toNat / 4096 % 16))
          (hexDigitChar (c.toNat / 256 % 16))
          (hexDigitChar (c.toNat / 16 % 16))
          (hexDigitChar (c.toNat % 16)) = c.toNat :=
        hex4val_hex4 c.toNat (by omega)
      have hns : ¬ (55296 ≤ hex4val (hexDigitChar (c.toNat / 4096 % 16))
          (hexDigitChar (c.toNat / 256 % 16))
          (hexDigitChar (c.toNat / 16 % 16))
          (hexDigitChar (c.toNat % 16))
          ∧ hex4val (hexDigitChar (c.toNat / 4096 % 16))
            (hexDigitChar (c.toNat / 256 % 16))
            (hexDigitChar (c.toNat / 16 % 16))
            (hexDigitChar (c.toNat % 16)) < 56320) := by
        rw [hv]
        rcases char_valid_toNat c with h | h
        · omega
        · omega
      rw [escDecode_u_single _ _ _ _ _ hns, hv, ih]
      simp [Char.ofNat_toNat]
    · rw [jsonEscapeChar, if_neg h1, if_neg h2, if_neg h3, if_neg h4,
        if_neg h5, if_neg h6, if_neg h7, if_neg h8, if_neg h9,
        if_neg h10]
      have hlt : c.toNat < 1114112 := by
        rcases char_valid_toNat c with h | h
        · omega
        · omega
      rw [show (uEscape (55296 + (c.toNat - 65536) / 1024)
            ++ uEscape (56320 + (c.toNat - 65536) % 1024))
            ++ (jsonEscapeList l ++ '"' :: r)
          = '\\' :: 'u'
            :: hexDigitChar ((55296 + (c.toNat - 65536) / 1024) / 4096 % 16)
            :: hexDigitChar ((55296 + (c.toNat - 65536) / 1024) / 256 % 16)
            :: hexDigitChar ((55296 + (c.toNat - 65536) / 1024) / 16 % 16)
            :: hexDigitChar ((55296 + (c.toNat - 65536) / 1024) % 16)
            :: '\\' :: 'u'
            :: hexDigitChar ((56320 + (c.toNat - 65536) % 1024) / 4096 % 16)
            :: hexDigitChar ((56320 + (c.toNat - 65536) % 1024) / 256 % 16)
            :: hexDigitChar ((56320 + (c.toNat - 65536) % 1024) / 16 % 16)
            :: hexDigitChar ((56320 + (c.toNat - 65536) % 1024) % 16)
            :: (jsonEscapeList l ++ '"' :: r) from by
        simp [uEscape, hex4]]
      have hv1 : hex4val
          (hexDigitChar ((55296 + (c.toNat - 65536) / 1024) / 4096 % 16))
          (hexDigitChar ((55296 + (c.toNat - 65536) / 1024) / 256 % 16))
          (hexDigitChar ((55296 + (c.toNat - 65536) / 1024) / 16 % 16))
          (hexDigitChar ((55296 + (c.toNat - 65536) / 1024) % 16))
          = 55296 + (c.toNat - 65536) / 1024 :=
        hex4val_hex4 _ (by omega)
      have hv2 : hex4val
          (hexDigitChar ((56320 + (c.toNat - 65536) % 1024) / 4096 % 16))
          (hexDigitChar ((56320 + (c.toNat - 65536) % 1024) / 256 % 16))
          (hexDigitChar ((56320 + (c.toNat - 65536) % 1024) / 16 % 16))
          (hexDigitChar ((56320 + (c.toNat - 65536) % 1024) % 16))
          = 56320 + (c.toNat - 65536) % 1024 :=
        hex4val_hex4 _ (by omega)
      have hsr : 55296 ≤ hex4val
          (hexDigitChar ((55296 + (c.toNat - 65536) / 1024) / 4096 % 16))
          (hexDigitChar ((55296 + (c.toNat - 65536) / 1024) / 256 % 16))
          (hexDigitChar ((55296 + (c.toNat - 65536) / 1024) / 16 % 16))
          (hexDigitChar ((55296 + (c.toNat - 65536) / 1024) % 16))
          ∧ hex4val
            (hexDigitChar ((55296 + (c.toNat - 65536) / 1024) / 4096 % 16))
            (hexDigitChar ((55296 + (c.toNat - 65536) / 1024) / 256 % 16))
            (hexDigitChar ((55296 + (c.toNat - 65536) / 1024) / 16 % 16))
            (hexDigitChar ((55296 + (c.toNat - 65536) / 1024) % 16))
            < 56320 := by
        rw [hv1]
        omega
      rw [escDecode_u_pair _ _ _ _ _ _ _ _ _ _ _ hsr, hv1, hv2, ih]
      have harg : 65536 + 1024 * (55296 + (c.toNat - 65536) / 1024 - 55296)
          + (56320 + (c.toNat - 65536) % 1024 - 56320) = c.toNat := by
        omega
      rw [harg, Char.ofNat_toNat]
      rfl

lemma jsonEscapeList_quote_inj (l1 l2 r1 r2 : List Char)
    (h : jsonEscapeList l1 ++ '"' :: r1 = jsonEscapeList l2 ++ '"' :: r2) :
    l1 = l2 ∧ r1 = r2 := by
  have h1 := escDecode_roundtrip l1 r1
  rw [h, escDecode_roundtrip l2 r2] at h1
  injection h1 with h2
  exact ⟨(congrArg Prod.fst h2).symm, (congrArg Prod.snd h2).symm⟩

lemma jsonString_step (s1 s2 : String) (r1 r2 : List Char)
    (h : (jsonString s1).data ++ r1 = (jsonString s2).data ++ r2) :
    s1 = s2 ∧ r1 = r2 := by
  have hq : ("\"" : String).data = ['"'] := rfl
  have e1 : (jsonString s1).data ++ r1
      = '"' :: (jsonEscapeList s1.data ++ '"' :: r1) := by
    simp only [jsonString, jsonEscape, String.data_append, hq,
      List.append_assoc, List.singleton_append, List.cons_append,
      List.nil_append]
  have e2 : (jsonString s2).data ++ r2
      = '"' :: (jsonEscapeList s2.data ++ '"' :: r2) := by
    simp only [jsonString, jsonEscape, String.data_append, hq,
      List.append_assoc, List.singleton_append, List.cons_append,
      List.nil_append]
  rw [e1, e2] at h
  injection h with _ h2
  obtain ⟨hd, hr⟩ := jsonEscapeList_quote_inj s1.data s2.data r1 r2 h2
  exact ⟨String.ext hd, hr⟩

lemma jsonNullable_step (v1 v2 : Option String) (r1 r2 : List Char)
    (h : (jsonNullable v1).data ++ r1 = (jsonNullable v2).data ++ r2) :
    v1 = v2 ∧ r1 = r2 := by
  rcases v1 with _ | s1 <;> rcases v2 with _ | s2
  · simp only [jsonNullable] at h
    exact ⟨rfl, List.append_cancel_left h⟩
  · exfalso
    simp only [jsonNullable] at h
    have h1 : (("null" : String).data ++ r1).head? = some 'n' := rfl
    have h2 : ((jsonString s2).data ++ r2).head? = some '"' := rfl
    rw [h, h2] at h1
    exact absurd h1 (by decide)
  · exfalso
    simp only [jsonNullable] at h
    have h1 : (("null" : String).data ++ r2).head? = some 'n' := rfl
    have h2 : ((jsonString s1).data ++ r1).head? = some '"' := rfl
    rw [← h, h2] at h1
    exact absurd h1 (by decide)
  · simp only [jsonNullable] at h
    obtain ⟨hs, hr⟩ := jsonString_step s1 s2 r1 r2 h
    exact ⟨by rw [hs], hr⟩

lemma runIdInput_data (e i v s : String) :
    (runIdInput e i v s).data
      = e.data ++ '|' :: (i.data ++ '|' :: (v.data ++ '|' :: s.data)) := by
  have hp : ("|" : String).data = ['|'] := rfl
  simp only [runIdInput, String.data_append, hp, List.append_assoc,
    List.singleton_append, List.cons_append, List.nil_append]

lemma runIdInput_inj (e1 i1 v1 s1 e2 i2 v2 s2 : String)
    (he1 : PipeFree e1) (hi1 : PipeFree i1) (hv1 : PipeFree v1)
    (he2 : PipeFree e2) (hi2 : PipeFree i2) (hv2 : PipeFree v2)
    (h : runIdInput e1 i1 v1 s1 = runIdInput e2 i2 v2 s2) :
    e1 = e2 ∧ i1 = i2 ∧ v1 = v2 ∧ s1 = s2 := by
  have hd := congrArg String.data h
  rw [runIdInput_data, runIdInput_data] at hd
  obtain ⟨hee, hd2⟩ := append_delim_inj '|' _ _ _ _ he1 he2 hd
  obtain ⟨hii, hd3⟩ := append_delim_inj '|' _ _ _ _ hi1 hi2 hd2
  obtain ⟨hvv, hd4⟩ := append_delim_inj '|' _ _ _ _ hv1 hv2 hd3
  exact ⟨String.ext hee, String.ext hii, String.ext hvv, String.ext hd4⟩

lemma specHashInput_data (p m : String) (v : Option String)
    (rp pj : String) (s : Int) (a : String) (r : Option String) :
    (specHashInput p m v rp pj s a r).data
      = ("\x7b\"input_audio_sha256\":" : String).data
        ++ ((jsonString a).data
        ++ ((",\"model\":" : String).data
        ++ ((jsonString m).data
        ++ ((",\"model_version\":" : String).data
        ++ ((jsonNullable v).data
        ++ ((",\"params_json\":" : String).data
        ++ ((jsonString pj).data
        ++ ((",\"provider\":" : String).data
        ++ ((jsonString p).data
        ++ ((",\"ref_image_sha256\":" : String).data
        ++ ((jsonNullable r).data
        ++ ((",\"rendered_prompt\":" : String).data
        ++ ((jsonString rp).data
        ++ ((",\"seed\":" : String).data
        ++ ((intRepr s).data
        ++ ("\x7d" : String).data))))))))))))))) := by
  simp only [specHashInput, String.data_append, List.append_assoc]

lemma specHashInput_inj
    (p1 m1 : String) (v1 : Option String) (rp1 pj1 : String) (s1 : Int)
    (a1 : String) (r1 : Option String)
    (p2 m2 : String) (v2 : Option String) (rp2 pj2 : String) (s2 : Int)
    (a2 : String) (r2 : Option String)
    (h : specHashInput p1 m1 v1 rp1 pj1 s1 a1 r1
        = specHashInput p2 m2 v2 rp2 pj2 s2 a2 r2) :
    p1 = p2 ∧ m1 = m2 ∧ v1 = v2 ∧ rp1 = rp2 ∧ pj1 = pj2 ∧ s1 = s2
      ∧ a1 = a2 ∧ r1 = r2 := by
  have hd := congrArg String.data h
  rw [specHashInput_data, specHashInput_data] at hd
  have st1 := List.append_cancel_left hd
  obtain ⟨haa, st2⟩ := jsonString_step a1 a2 _ _ st1
  have st3 := List.append_cancel_left st2
  obtain ⟨hmm, st4⟩ := jsonString_step m1 m2 _ _ st3
  have st5 := List.append_cancel_left st4
  obtain ⟨hvv, st6⟩ := jsonNullable_step v1 v2 _ _ st5
  have st7 := List.append_cancel_left st6
  obtain ⟨hjj, st8⟩ := jsonString_step pj1 pj2 _ _ st7
  have st9 := List.append_cancel_left st8
  obtain ⟨hpp, st10⟩ := jsonString_step p1 p2 _ _ st9
  have st11 := List.append_cancel_left st10
  obtain ⟨hrr, st12⟩ := jsonNullable_step r1 r2 _ _ st11
  have st13 := List.append_cancel_left st12
  obtain ⟨hqq, st14⟩ := jsonString_step rp1 rp2 _ _ st13
  have st15 := List.append_cancel_left st14
  have hss := intRepr_inj s1 s2 (List.append_cancel_right st15)
  exact ⟨hpp, hmm, hvv, hqq, hjj, hss, haa, hrr⟩

/-- C8 counterexample: the pipe delimiter CAN appear in the inputs of
`compute_run_id`, and then two distinct tuples produce the very same
joined identity string — hence the same digest for any digest
function (shown for the identity digest): the unrestricted injectivity
the claim states is false. -/
theorem run_id_pipe_collision :
    runIdInput "a|b" "c" "d" "e" = runIdInput "a" "b|c" "d" "e"
    ∧ ("a|b", "c") ≠ ("a", "b|c")
    ∧ compute_run_id id "a|b" "c" "d" "e"
        = compute_run_id id "a" "b|c" "d" "e" :=
  ⟨rfl, by decide, rfl⟩

/-- C8 (amended): `compute_spec_hash` and `compute_run_id` are
deterministic — each is the fixed digest of a canonical input string
built from its arguments.  At the level of those canonical strings,
`compute_spec_hash` is injective unconditionally: distinct argument
tuples always yield distinct canonical JSON documents, because the
escaped serialisation of `json.dumps` is uniquely decodable.
`compute_run_id` is injective only on tuples whose
experiment_id/item_id/variant_key are pipe-free: nothing stops the
pipe delimiter appearing in the inputs, and then distinct tuples
collide (see the counterexample). -/
theorem identity_hashing_spec :
    (∀ (sha256hex : String → String) (e i v h : String),
      compute_run_id sha256hex e i v h = sha256hex (runIdInput e i v h))
    ∧ (∀ (sha256hex : String → String) (p m : String)
        (v : Option String) (rp pj : String) (s : Int) (a : String)
        (r : Option String),
      compute_spec_hash sha256hex p m v rp pj s a r
        = sha256hex (specHashInput p m v rp pj s a r))
    ∧ (∀ (e1 i1 v1 s1 e2 i2 v2 s2 : String),
        PipeFree e1 → PipeFree i1 → PipeFree v1 →
        PipeFree e2 → PipeFree i2 → PipeFree v2 →
        runIdInput e1 i1 v1 s1 = runIdInput e2 i2 v2 s2 →
        e1 = e2 ∧ i1 = i2 ∧ v1 = v2 ∧ s1 = s2)
    ∧ (∀ (p1 m1 : String) (v1 : Option String) (rp1 pj1 : String)
        (s1 : Int) (a1 : String) (r1 : Option String)
        (p2 m2 : String) (v2 : Option String) (rp2 pj2 : String)
        (s2 : Int) (a2 : String) (r2 : Option String),
        specHashInput p1 m1 v1 rp1 pj1 s1 a1 r1
          = specHashInput p2 m2 v2 rp2 pj2 s2 a2 r2 →
        p1 = p2 ∧ m1 = m2 ∧ v1 = v2 ∧ rp1 = rp2 ∧ pj1 = pj2
          ∧ s1 = s2 ∧ a1 = a2 ∧ r1 = r2) := by
  refine ⟨fun _ _ _ _ _ => rfl, fun _ _ _ _ _ _ _ _ _ => rfl, ?_, ?_⟩
  · intro e1 i1 v1 s1 e2 i2 v2 s2 he1 hi1 hv1 he2 hi2 hv2 h
    exact runIdInput_inj e1 i1 v1 s1 e2 i2 v2 s2 he1 hi1 hv1 he2 hi2
      hv2 h
  · intro p1 m1 v1 rp1 pj1 s1 a1 r1 p2 m2 v2 rp2 pj2 s2 a2 r2 h
    exact specHashInput_inj p1 m1 v1 rp1 pj1 s1 a1 r1 p2 m2 v2 rp2 pj2
      s2 a2 r2 h

theorem identity_hashing_spec_witness :
    compute_run_id id "e1" "i1" "seed=42" "ff" = id (runIdInput "e1" "i1" "seed=42" "ff")
    ∧ (("x" : String) = "x" ∧ ("y" : String) = "y" ∧ ("z" : String) = "z"
        ∧ ("w" : String) = "w")
    ∧ (("mock" : String) = "mock" ∧ ("m1" : String) = "m1"
        ∧ (none : Option String) = none ∧ ("say hi" : String) = "say hi"
        ∧ ("\x7b\x7d" : String) = "\x7b\x7d" ∧ (42 : Int) = 42
        ∧ ("aa" : String) = "aa" ∧ (none : Option String) = none) :=
  ⟨identity_hashing_spec.1 id "e1" "i1" "seed=42" "ff",
    identity_hashing_spec.2.2.1 "x" "y" "z" "w" "x" "y" "z" "w"
      (by unfold PipeFree; decide) (by unfold PipeFree; decide)
      (by unfold PipeFree; decide) (by unfold PipeFree; decide)
      (by unfold PipeFree; decide) (by unfold PipeFree; decide) rfl,
    identity_hashing_spec.2.2.2 "mock" "m1" none "say hi" "\x7b\x7d" 42
      "aa" none "mock" "m1" none "say hi" "\x7b\x7d" 42 "aa" none rfl⟩
